import Mathlib

/-!
Verification development for the quant engine of the llm-analytics repository.

The definitions below are a shallow embedding of the Python source under
backend/app (quant/engine.py, quant/strategies/rsi_reversal.py,
data/market_cache.py, strategy/low_volume_pullback.py).  Machine floats are
modelled as rationals (ℚ); pandas NaN produced by rolling windows with
min_periods is modelled with Option ℚ; pandas sort_values — whose default
kind="quicksort" is documented as not stable — is modelled by its contract
only: its output is some permutation of its input that is non-decreasing in
the sort key, supplied as a hypothesis (IsSortedPermOf), with stability an
extra assumption stated explicitly where a result depends on it.
-/

set_option maxHeartbeats 1000000
set_option linter.unusedSectionVars false
set_option linter.unusedVariables false

/-! ## Generic list machinery: drop-duplicates keep last -/

section DedupLast

variable {α : Type} {β : Type} [DecidableEq β]

/-- Models `DataFrame.drop_duplicates(subset=key, keep="last")`: keep, for each
key, only the last row carrying it, preserving the order of kept rows. -/
def dedupKeepLast (key : α → β) : List α → List α
  | [] => []
  | a :: l =>
    if l.any (fun b => decide (key b = key a)) then dedupKeepLast key l
    else a :: dedupKeepLast key l

theorem dedupKeepLast_sublist (key : α → β) (l : List α) :
    (dedupKeepLast key l).Sublist l := by
  induction l with
  | nil => simp [dedupKeepLast]
  | cons a l ih =>
    by_cases h : l.any (fun b => decide (key b = key a))
    · simpa [dedupKeepLast, h] using ih.cons a
    · simpa [dedupKeepLast, h] using ih.cons₂ a

theorem dedupKeepLast_pairwise_ne (key : α → β) (l : List α) :
    (dedupKeepLast key l).Pairwise (fun x y => key x ≠ key y) := by
  induction l with
  | nil => simp [dedupKeepLast]
  | cons a l ih =>
    by_cases h : l.any (fun b => decide (key b = key a))
    · simpa [dedupKeepLast, h] using ih
    · simp only [dedupKeepLast, if_neg h]
      refine List.Pairwise.cons ?_ ih
      intro z hz hkey
      have hzl : z ∈ l := (dedupKeepLast_sublist key l).mem hz
      exact h (List.any_eq_true.mpr ⟨z, hzl, by simp [hkey.symm]⟩)

theorem dedupKeepLast_eq_nil_iff (key : α → β) (l : List α) :
    dedupKeepLast key l = [] ↔ l = [] := by
  induction l with
  | nil => simp [dedupKeepLast]
  | cons a l ih =>
    by_cases h : l.any (fun b => decide (key b = key a))
    · rcases List.any_eq_true.mp h with ⟨z, hz, _⟩
      simp only [dedupKeepLast, if_pos h]
      constructor
      · intro hnil
        exact absurd (ih.mp hnil ▸ hz) (List.not_mem_nil z)
      · intro hfalse; cases hfalse
    · simp [dedupKeepLast, h]

theorem getLast?_cons_of_ne_nil {γ : Type} (a : γ) {l : List γ} (h : l ≠ []) :
    (a :: l).getLast? = l.getLast? := by
  cases l with
  | nil => exact absurd rfl h
  | cons b l => simp [List.getLast?_cons_cons]

/-- `dedupKeepLast` keeps, among rows of key `t`, exactly the last one. -/
theorem dedupKeepLast_filter (key : α → β) (t : β) (l : List α) :
    (dedupKeepLast key l).filter (fun b => decide (key b = t)) =
      ((l.filter (fun b => decide (key b = t))).getLast?).toList := by
  induction l with
  | nil => simp [dedupKeepLast]
  | cons a l ih =>
    by_cases h : l.any (fun b => decide (key b = key a))
    · simp only [dedupKeepLast, if_pos h]
      by_cases hat : key a = t
      · have hne : l.filter (fun b => decide (key b = t)) ≠ [] := by
          rcases List.any_eq_true.mp h with ⟨z, hz, hkz⟩
          have hkz' : key z = key a := of_decide_eq_true hkz
          intro hnil
          have : z ∈ l.filter (fun b => decide (key b = t)) :=
            List.mem_filter.mpr ⟨hz, by simp [hkz', hat]⟩
          rw [hnil] at this
          exact List.not_mem_nil z this
        rw [ih, List.filter_cons_of_pos (by simp [hat]),
          getLast?_cons_of_ne_nil a hne]
      · rw [ih, List.filter_cons_of_neg (by simp [hat])]
    · simp only [dedupKeepLast, if_neg h]
      by_cases hat : key a = t
      · have hnil : l.filter (fun b => decide (key b = t)) = [] := by
          rw [List.filter_eq_nil_iff]
          intro z hz hkz
          have hkz' : key z = t := of_decide_eq_true hkz
          exact h (List.any_eq_true.mpr ⟨z, hz, by simp [hkz', hat]⟩)
        rw [List.filter_cons_of_pos (by simp [hat]),
          List.filter_cons_of_pos (by simp [hat]), ih, hnil]
        simp
      · rw [List.filter_cons_of_neg (by simp [hat]),
          List.filter_cons_of_neg (by simp [hat]), ih]

end DedupLast

/-- The contract of pandas `sort_values(column)` with its default
kind="quicksort": the output is some permutation of the input that is
non-decreasing in the sort key.  The default quicksort is documented as not
stable, so no relative order among rows with equal keys is promised. -/
def IsSortedPermOf {α : Type} {κ : Type} [LinearOrder κ]
    (key : α → κ) (src out : List α) : Prop :=
  out.Perm src ∧ out.Pairwise (fun x y => key x ≤ key y)

/-! ## Bar-series normalizer (market_cache.py `_df_to_bars`, engine.py `_bars_to_df`) -/

/-- A row of the raw downloaded dataframe for one ticker after
`_ensure_timestamp` (market_cache.py 223-238): `ts?` is the parsed
epoch-second timestamp of the Datetime column, `none` when the parse failed
(NaT); `v?` is `none` when Volume is NaN. -/
structure RawRow where
  ts? : Option Int
  o : ℚ
  hi : ℚ
  lo : ℚ
  c : ℚ
  v? : Option ℚ
deriving DecidableEq

/-- Sort key of `sort_values("ts")` in `_df_to_bars`: NaT rows sort last
(pandas default na_position="last"). -/
def rowKey (r : RawRow) : WithTop Int :=
  match r.ts? with
  | some t => (t : WithTop Int)
  | none => ⊤

/-- The stored bar dict emitted by `_df_to_bars` (market_cache.py 194-220);
the ISO "time" string is modelled by the epoch value it denotes. -/
structure BarDict where
  t : Int
  time : Int
  o : ℚ
  hi : ℚ
  lo : ℚ
  c : ℚ
  v : ℚ
deriving DecidableEq

/-- The bar built from one kept row (market_cache.py 206-218); Volume NaN
defaults to 0. -/
def mkBarDict (r : RawRow) (t : Int) : BarDict :=
  { t := t, time := t, o := r.o, hi := r.hi, lo := r.lo, c := r.c,
    v := r.v?.getD 0 }

/-- `_df_to_bars` on one ticker group, taking the already-sorted frame
(the result of `group.sort_values("ts")`, market_cache.py line 200) as its
input: drop duplicate timestamps keeping the last row of the sorted frame,
then emit a bar per row whose ts is not NaN.  The sort itself only satisfies
the `IsSortedPermOf rowKey` contract and is supplied by the caller. -/
def dfToBarsWith (s1 : List RawRow) : List BarDict :=
  (dedupKeepLast (fun r => r.ts?) s1).filterMap
    (fun r => r.ts?.map (mkBarDict r))

/-- A raw bar record as consumed by `_bars_to_df` (engine.py 202-222): a
dict with optional numeric "t", optional ISO "time" (modelled by its parsed
value, `none` when absent or unparseable) and optional OHLCV fields. -/
structure RawBar where
  t? : Option Int
  time? : Option Int
  o? : Option ℚ
  h? : Option ℚ
  l? : Option ℚ
  c? : Option ℚ
  v? : Option ℚ
deriving DecidableEq

/-- `_extract_ts` (engine.py 225-236): prefer the numeric "t" field, fall
back to the parsed "time" string. -/
def extractTs (b : RawBar) : Option Int :=
  match b.t? with
  | some t => some t
  | none => b.time?

/-- A row of the OHLCV dataframe built by `_bars_to_df`. -/
structure Row where
  ts : Int
  o : ℚ
  hi : ℚ
  lo : ℚ
  c : ℚ
  v : ℚ
deriving DecidableEq

/-- The dataframe record built for one raw bar (engine.py 208-217); missing
fields coerce to 0.0, absent volume defaults to 0. -/
def mkRow (b : RawBar) (ts : Int) : Row :=
  { ts := ts, o := b.o?.getD 0, hi := b.h?.getD 0, lo := b.l?.getD 0,
    c := b.c?.getD 0, v := b.v?.getD 0 }

/-- The deterministic part of `_bars_to_df` (engine.py 202-222): keep
records with a valid timestamp and build the OHLCV row for each; the final
`sort_values("time")` is again supplied through its `IsSortedPermOf`
contract. -/
def barsToDfKept (bars : List RawBar) : List Row :=
  bars.filterMap (fun b => (extractTs b).map (mkRow b))

/-- Serialization of a stored bar back into a raw record (the JSON written
by the cache carries both "t" and "time" and all OHLCV fields). -/
def barDictToRawBar (b : BarDict) : RawBar :=
  { t? := some b.t, time? := some b.time, o? := some b.o, h? := some b.hi,
    l? := some b.lo, c? := some b.c, v? := some b.v }

/-- The output row the normalizer owes to timestamp `t`: the fields of a raw
record carrying `t` (volume defaulting to 0 when NaN). -/
def rowOfRaw (t : Int) (r : RawRow) : Row :=
  { ts := t, o := r.o, hi := r.hi, lo := r.lo, c := r.c, v := r.v?.getD 0 }

def rowOfBarDict (b : BarDict) : Row :=
  { ts := b.t, o := b.o, hi := b.hi, lo := b.lo, c := b.c, v := b.v }

theorem filterMap_mkBarDict_filter (t : Int) (l : List RawRow) :
    (l.filterMap (fun r => r.ts?.map (mkBarDict r))).filter
        (fun b => decide (b.t = t)) =
      (l.filter (fun r => decide (r.ts? = some t))).map (fun r => mkBarDict r t) := by
  induction l with
  | nil => simp
  | cons r l ih =>
    cases hr : r.ts? with
    | none =>
      rw [@List.filterMap_cons_none _ _ (fun r => r.ts?.map (mkBarDict r)) r l
        (by simp [hr]),
        List.filter_cons_of_neg (by simp [hr])]
      exact ih
    | some s =>
      rw [@List.filterMap_cons_some _ _ (fun r => r.ts?.map (mkBarDict r)) r l
        (mkBarDict r s) (by simp [hr])]
      by_cases hst : s = t
      · subst hst
        rw [List.filter_cons_of_pos (by simp [mkBarDict]),
          List.filter_cons_of_pos (by simp [hr]), List.map_cons, ih]
      · rw [List.filter_cons_of_neg (by simp [mkBarDict, hst]),
          List.filter_cons_of_neg (by simp [hr, hst]), ih]

theorem filterMap_mkBarDict_pairwise (l : List RawRow)
    (h : l.Pairwise (fun x y => rowKey x ≤ rowKey y ∧ x.ts? ≠ y.ts?)) :
    (l.filterMap (fun r => r.ts?.map (mkBarDict r))).Pairwise
      (fun x y => x.t < y.t) := by
  induction l with
  | nil => simp
  | cons r l ih =>
    rcases h with _ | ⟨hr, hl⟩
    cases hts : r.ts? with
    | none =>
      rw [@List.filterMap_cons_none _ _ (fun r => r.ts?.map (mkBarDict r)) r l
        (by simp [hts])]
      exact ih hl
    | some s =>
      rw [@List.filterMap_cons_some _ _ (fun r => r.ts?.map (mkBarDict r)) r l
        (mkBarDict r s) (by simp [hts])]
      refine List.Pairwise.cons ?_ (ih hl)
      intro y hy
      rcases List.mem_filterMap.mp hy with ⟨r', hr', hfr'⟩
      rcases Option.map_eq_some'.mp hfr' with ⟨s', hts', hmk⟩
      have hkey := (hr r' hr').1
      have hney := (hr r' hr').2
      rw [rowKey, rowKey, hts, hts'] at hkey
      have hss : s ≤ s' := WithTop.coe_le_coe.mp hkey
      have hss' : s ≠ s' := by
        intro h; exact hney (by rw [hts, hts', h])
      have hyt : y.t = s' := by rw [← hmk]; simp [mkBarDict]
      have : (mkBarDict r s).t = s := rfl
      rw [this, hyt]
      exact lt_of_le_of_ne hss hss'

theorem dfToBarsWith_filter (t : Int) (s1 : List RawRow) :
    (dfToBarsWith s1).filter (fun b => decide (b.t = t)) =
      (((s1.filter (fun r => decide (r.ts? = some t))).getLast?).map
        (fun r => mkBarDict r t)).toList := by
  rw [dfToBarsWith, filterMap_mkBarDict_filter,
    dedupKeepLast_filter (fun r => r.ts?) (some t) s1]
  cases (s1.filter (fun r => decide (r.ts? = some t))).getLast? <;> simp

theorem dfToBarsWith_pairwise (s1 : List RawRow)
    (h : s1.Pairwise (fun x y => rowKey x ≤ rowKey y)) :
    (dfToBarsWith s1).Pairwise (fun x y => x.t < y.t) := by
  have hle : (dedupKeepLast (fun r => r.ts?) s1).Pairwise
      (fun x y => rowKey x ≤ rowKey y) :=
    List.Pairwise.sublist (dedupKeepLast_sublist _ _) h
  have hne : (dedupKeepLast (fun r => r.ts?) s1).Pairwise
      (fun x y => x.ts? ≠ y.ts?) := dedupKeepLast_pairwise_ne _ _
  exact filterMap_mkBarDict_pairwise _ (hle.and hne)

theorem dfToBarsWith_eq_nil_iff (s1 : List RawRow) :
    dfToBarsWith s1 = [] ↔ s1.filter (fun r => r.ts?.isSome) = [] := by
  constructor
  · intro h
    rw [List.filter_eq_nil_iff]
    intro r hr hsome
    rcases Option.isSome_iff_exists.mp hsome with ⟨t, hts⟩
    have hmem : r ∈ s1.filter (fun x => decide (x.ts? = some t)) :=
      List.mem_filter.mpr ⟨hr, by simp [hts]⟩
    have hne : s1.filter (fun x => decide (x.ts? = some t)) ≠ [] := by
      intro hnil; rw [hnil] at hmem; exact List.not_mem_nil r hmem
    have hfil := dfToBarsWith_filter t s1
    rw [h] at hfil
    rcases Option.isSome_iff_exists.mp (List.getLast?_isSome.mpr hne) with
      ⟨r', hlast⟩
    rw [hlast] at hfil
    simp at hfil
  · intro h
    rw [dfToBarsWith, List.filterMap_eq_nil_iff]
    intro r hr
    have hr' : r ∈ s1 := (dedupKeepLast_sublist _ _).mem hr
    have hnone : ¬ r.ts?.isSome := by
      intro hsome
      have : r ∈ s1.filter (fun x => x.ts?.isSome) :=
        List.mem_filter.mpr ⟨hr', by simp [hsome]⟩
      rw [h] at this
      exact List.not_mem_nil r this
    rw [Option.not_isSome_iff_eq_none.mp hnone]
    rfl

/-- Reloading the cached bars through `_bars_to_df` keeps every record (both
"t" and the OHLCV fields are present in the written JSON) and rebuilds
exactly the row each bar denotes. -/
theorem barsToDfKept_map_barDictToRawBar (l : List BarDict) :
    barsToDfKept (l.map barDictToRawBar) = l.map rowOfBarDict := by
  rw [barsToDfKept, List.filterMap_map]
  induction l with
  | nil => simp
  | cons b l ih =>
    rw [@List.filterMap_cons_some _ _ ((fun b => (extractTs b).map (mkRow b)) ∘
      barDictToRawBar) b l (rowOfBarDict b) rfl, List.map_cons, ih]

theorem eq_of_perm_of_length_le_one {γ : Type} {l l' : List γ}
    (h : l.Perm l') (hlen : l'.length ≤ 1) : l = l' := by
  cases l' with
  | nil => exact h.eq_nil
  | cons a t =>
    cases t with
    | nil => exact List.perm_singleton.mp h
    | cons b u => simp at hlen

/-- C1 (corrected): for every ingested record list and every execution of the
two `sort_values` calls allowed by their contract (the sorted output is some
key-ordered permutation of its input; the default quicksort promises no
more), the normalizer pipeline yields a series strictly ascending by
timestamp (hence at most one record per timestamp), empty — the condition
callers surface as the empty-series failure — exactly when no valid
timestamped record remains, whose every record carries the fields of some
ingested record with that timestamp, with a record present for each valid
timestamp.  The record kept at a duplicated timestamp is the last row of the
sorted frame; only when the sort execution is stable (preserves the relative
order of equal-key rows, which the default quicksort does not promise) is it
the last-ingested record. -/
theorem c1_normalizer (rows s1 : List RawRow) (s2 : List Row)
    (h1 : IsSortedPermOf rowKey rows s1)
    (h2 : IsSortedPermOf (fun r : Row => r.ts)
      (barsToDfKept ((dfToBarsWith s1).map barDictToRawBar)) s2) :
    (s2.Pairwise (fun x y => x.ts < y.ts))
    ∧ (s2 = [] ↔ rows.filter (fun r => r.ts?.isSome) = [])
    ∧ (∀ x ∈ s2, ∃ r ∈ rows, ∃ t : Int, r.ts? = some t ∧ x = rowOfRaw t r)
    ∧ (∀ t : Int, (∃ r ∈ rows, r.ts? = some t) →
        ∃ r ∈ rows, r.ts? = some t ∧ rowOfRaw t r ∈ s2)
    ∧ ((∀ u : Option Int,
          s1.filter (fun r => decide (r.ts? = u)) =
            rows.filter (fun r => decide (r.ts? = u))) →
        ∀ t : Int,
          s2.filter (fun x => decide (x.ts = t)) =
            (((rows.filter (fun r => decide (r.ts? = some t))).getLast?).map
              (rowOfRaw t)).toList) := by
  have hperm1 : s1.Perm rows := h1.1
  have hsort1 : s1.Pairwise (fun x y => rowKey x ≤ rowKey y) := h1.2
  have hperm2 : s2.Perm ((dfToBarsWith s1).map rowOfBarDict) := by
    have := h2.1
    rwa [barsToDfKept_map_barDictToRawBar] at this
  have hsort2 : s2.Pairwise (fun x y => x.ts ≤ y.ts) := h2.2
  refine ⟨?_, ?_, ?_, ?_, ?_⟩
  · have hne0 : ((dfToBarsWith s1).map rowOfBarDict).Pairwise
        (fun x y => x.ts ≠ y.ts) := by
      refine List.Pairwise.map _ ?_ (dfToBarsWith_pairwise s1 hsort1)
      intro a b hab
      exact ne_of_lt hab
    have hsymm : ∀ {x y : Row}, x.ts ≠ y.ts → y.ts ≠ x.ts := fun h => h.symm
    have hs2ne : s2.Pairwise (fun x y => x.ts ≠ y.ts) :=
      (List.Perm.pairwise_iff hsymm hperm2).mpr hne0
    exact (hsort2.and hs2ne).imp (fun h => lt_of_le_of_ne h.1 h.2)
  · constructor
    · intro h
      have hmapnil : (dfToBarsWith s1).map rowOfBarDict = [] :=
        (h ▸ hperm2).symm.eq_nil
      have hs1nil : s1.filter (fun r => r.ts?.isSome) = [] :=
        (dfToBarsWith_eq_nil_iff s1).mp (List.map_eq_nil_iff.mp hmapnil)
      have hff := hperm1.filter (fun r => r.ts?.isSome)
      rw [hs1nil] at hff
      exact hff.symm.eq_nil
    · intro h
      have hff := hperm1.filter (fun r => r.ts?.isSome)
      rw [h] at hff
      have hmidnil : dfToBarsWith s1 = [] :=
        (dfToBarsWith_eq_nil_iff s1).mpr hff.eq_nil
      rw [hmidnil, List.map_nil] at hperm2
      exact hperm2.eq_nil
  · intro x hx
    have hxmem : x ∈ (dfToBarsWith s1).map rowOfBarDict :=
      hperm2.mem_iff.mp hx
    rcases List.mem_map.mp hxmem with ⟨b, hb, hxb⟩
    rw [dfToBarsWith] at hb
    rcases List.mem_filterMap.mp hb with ⟨r, hr, hfr⟩
    rcases Option.map_eq_some'.mp hfr with ⟨t, hts, hmk⟩
    refine ⟨r, ?_, t, hts, ?_⟩
    · exact hperm1.mem_iff.mp ((dedupKeepLast_sublist _ _).mem hr)
    · rw [← hxb, ← hmk]
      rfl
  · rintro t ⟨r, hr, hts⟩
    have hmem1 : r ∈ s1.filter (fun x => decide (x.ts? = some t)) :=
      List.mem_filter.mpr ⟨hperm1.mem_iff.mpr hr, by simp [hts]⟩
    have hne : s1.filter (fun x => decide (x.ts? = some t)) ≠ [] := by
      intro hnil; rw [hnil] at hmem1; exact List.not_mem_nil r hmem1
    rcases Option.isSome_iff_exists.mp (List.getLast?_isSome.mpr hne) with
      ⟨r0, hlast⟩
    have hr0fil : r0 ∈ s1.filter (fun x => decide (x.ts? = some t)) := by
      rcases List.mem_getLast?_eq_getLast (Option.mem_def.mpr hlast) with
        ⟨hne', heq⟩
      rw [heq]
      exact List.getLast_mem hne'
    have hr0p := List.mem_filter.mp hr0fil
    have hr0rows : r0 ∈ rows := hperm1.mem_iff.mp hr0p.1
    have hr0ts : r0.ts? = some t := of_decide_eq_true hr0p.2
    have hfil := dfToBarsWith_filter t s1
    rw [hlast] at hfil
    have hbmem : mkBarDict r0 t ∈
        (dfToBarsWith s1).filter (fun b => decide (b.t = t)) := by
      rw [hfil]; simp
    have hbmem' : mkBarDict r0 t ∈ dfToBarsWith s1 :=
      (List.mem_filter.mp hbmem).1
    refine ⟨r0, hr0rows, hr0ts, ?_⟩
    refine hperm2.mem_iff.mpr ?_
    exact List.mem_map.mpr ⟨mkBarDict r0 t, hbmem', rfl⟩
  · intro hstab t
    have hfil := dfToBarsWith_filter t s1
    rw [hstab (some t)] at hfil
    have hmapfil : ((dfToBarsWith s1).map rowOfBarDict).filter
        (fun x => decide (x.ts = t)) =
        (((rows.filter (fun r => decide (r.ts? = some t))).getLast?).map
          (rowOfRaw t)).toList := by
      rw [List.filter_map]
      have hcongr : (dfToBarsWith s1).filter
          ((fun x => decide (x.ts = t)) ∘ rowOfBarDict) =
          (dfToBarsWith s1).filter (fun b => decide (b.t = t)) :=
        List.filter_congr (fun x _ => rfl)
      rw [hcongr, hfil]
      cases (rows.filter (fun r => decide (r.ts? = some t))).getLast? with
      | none => rfl
      | some r => rfl
    have hpf := hperm2.filter (fun x => decide (x.ts = t))
    rw [hmapfil] at hpf
    refine eq_of_perm_of_length_le_one hpf ?_
    cases (rows.filter (fun r => decide (r.ts? = some t))).getLast? <;> simp

/-- Two raw records sharing timestamp 0; `rawB` is ingested after `rawA`. -/
def rawA : RawRow :=
  { ts? := some 0, o := 1, hi := 1, lo := 1, c := 1, v? := some 1 }

def rawB : RawRow :=
  { ts? := some 0, o := 2, hi := 2, lo := 2, c := 2, v? := some 2 }

/-- C1 counterexample: the last-ingested record does not always win.  On
ingestion order [rawA, rawB] — both at timestamp 0 — the sorted frame
[rawB, rawA] is allowed by the `sort_values` contract (it is a permutation
of the input, non-decreasing in the key; the default quicksort is not
stable, so this order is not excluded), and on it the keep-last duplicate
drop keeps `rawA`: the whole pipeline outputs the row built from `rawA`,
whose fields differ from those of the last-ingested `rawB`. -/
theorem c1_counterexample :
    IsSortedPermOf rowKey [rawA, rawB] [rawB, rawA]
    ∧ IsSortedPermOf (fun r : Row => r.ts)
        (barsToDfKept ((dfToBarsWith [rawB, rawA]).map barDictToRawBar))
        [rowOfRaw 0 rawA]
    ∧ ([rawA, rawB].filter (fun r => decide (r.ts? = some 0))).getLast? =
        some rawB
    ∧ rowOfRaw 0 rawA ≠ rowOfRaw 0 rawB := by
  refine ⟨⟨List.Perm.swap rawA rawB [], ?_⟩, ⟨?_, ?_⟩, rfl, ?_⟩
  · refine List.Pairwise.cons ?_ (List.pairwise_singleton _ _)
    intro y hy
    rw [List.mem_singleton] at hy
    subst hy
    exact le_refl _
  · exact List.Perm.refl _
  · exact List.pairwise_singleton _ _
  · intro h
    have ho := congrArg Row.o h
    norm_num [rowOfRaw, rawA, rawB] at ho

def rawW0 : RawRow :=
  { ts? := some 1, o := 10, hi := 11, lo := 9, c := 10, v? := some 100 }

def rawW1 : RawRow :=
  { ts? := some 0, o := 20, hi := 21, lo := 19, c := 20, v? := none }

def rawW2 : RawRow :=
  { ts? := some 1, o := 30, hi := 31, lo := 29, c := 30, v? := some 300 }

theorem c1_witness :
    IsSortedPermOf rowKey [rawW0, rawW1, rawW2] [rawW1, rawW0, rawW2]
    ∧ IsSortedPermOf (fun r : Row => r.ts)
        (barsToDfKept ((dfToBarsWith [rawW1, rawW0, rawW2]).map
          barDictToRawBar))
        [rowOfRaw 0 rawW1, rowOfRaw 1 rawW2]
    ∧ ([rowOfRaw 0 rawW1, rowOfRaw 1 rawW2] : List Row).Pairwise
        (fun x y => x.ts < y.ts) := by
  have h1 : IsSortedPermOf rowKey [rawW0, rawW1, rawW2]
      [rawW1, rawW0, rawW2] := by
    refine ⟨List.Perm.swap rawW0 rawW1 [rawW2], ?_⟩
    refine List.Pairwise.cons ?_ ?_
    · intro y hy
      rcases List.mem_cons.mp hy with hy0 | hy1
      · subst hy0
        exact WithTop.coe_le_coe.mpr (by norm_num)
      · rw [List.mem_singleton] at hy1
        subst hy1
        exact WithTop.coe_le_coe.mpr (by norm_num)
    · refine List.Pairwise.cons ?_ (List.pairwise_singleton _ _)
      intro y hy
      rw [List.mem_singleton] at hy
      subst hy
      exact le_refl _
  have h2 : IsSortedPermOf (fun r : Row => r.ts)
      (barsToDfKept ((dfToBarsWith [rawW1, rawW0, rawW2]).map
        barDictToRawBar))
      [rowOfRaw 0 rawW1, rowOfRaw 1 rawW2] := by
    refine ⟨List.Perm.refl _, ?_⟩
    refine List.Pairwise.cons ?_ (List.pairwise_singleton _ _)
    intro y hy
    rw [List.mem_singleton] at hy
    subst hy
    show (0 : Int) ≤ 1
    norm_num
  exact ⟨h1, h2,
    (c1_normalizer [rawW0, rawW1, rawW2] [rawW1, rawW0, rawW2]
      [rowOfRaw 0 rawW1, rowOfRaw 1 rawW2] h1 h2).1⟩

/-! ## RSI (quant/strategies/rsi_reversal.py, `compute_rsi_series`) -/

/-- np.diff with prepend=values[0]: the delta at index 0 is 0. -/
def deltaAt (xs : List ℚ) (i : Nat) : ℚ :=
  if i = 0 then 0 else xs.getD i 0 - xs.getD (i - 1) 0

/-- np.where(delta > 0, delta, 0.0). -/
def gainAt (xs : List ℚ) (i : Nat) : ℚ :=
  if 0 < deltaAt xs i then deltaAt xs i else 0

/-- np.where(delta < 0, -delta, 0.0). -/
def lossAt (xs : List ℚ) (i : Nat) : ℚ :=
  if deltaAt xs i < 0 then -(deltaAt xs i) else 0

/-- Wilder smoothing of gains, α = 1/length, seeded from the first gain. -/
def avgGainAt (xs : List ℚ) (L : Nat) : Nat → ℚ
  | 0 => gainAt xs 0
  | i + 1 => (1 / (L : ℚ)) * gainAt xs (i + 1)
      + (1 - 1 / (L : ℚ)) * avgGainAt xs L i

/-- Wilder smoothing of losses, α = 1/length, seeded from the first loss. -/
def avgLossAt (xs : List ℚ) (L : Nat) : Nat → ℚ
  | 0 => lossAt xs 0
  | i + 1 => (1 / (L : ℚ)) * lossAt xs (i + 1)
      + (1 - 1 / (L : ℚ)) * avgLossAt xs L i

/-- np.divide(avg_gain, avg_loss, out=np.zeros_like(..), where=avg_loss != 0):
the ratio is 0 — not infinity — wherever the average loss is 0. -/
def rsAt (xs : List ℚ) (L : Nat) (i : Nat) : ℚ :=
  if avgLossAt xs L i ≠ 0 then avgGainAt xs L i / avgLossAt xs L i else 0

/-- rsi = 100 - 100 / (1 + rs). -/
def rsiAt (xs : List ℚ) (L : Nat) (i : Nat) : ℚ :=
  100 - 100 / (1 + rsAt xs L i)

/-- `compute_rsi_series` as a full-length series aligned with its input. -/
def computeRsiSeries (xs : List ℚ) (L : Nat) : List ℚ :=
  (List.range xs.length).map (rsiAt xs L)

/-- C2 counterexample: on closes [1, 2] with length 2, the Wilder-smoothed
average loss at index 1 is 0, yet the computed RSI there is 0 — not the
claimed 100 — because np.divide leaves the ratio at its `out` value 0. -/
theorem c2_counterexample :
    avgLossAt [(1 : ℚ), 2] 2 1 = 0 ∧ rsiAt [(1 : ℚ), 2] 2 1 = 0 ∧
      rsiAt [(1 : ℚ), 2] 2 1 ≠ 100 := by
  refine ⟨?_, ?_, ?_⟩ <;>
    norm_num [avgLossAt, rsiAt, rsAt, avgGainAt, gainAt, lossAt, deltaAt,
      List.getD]

/-- C2 amended: for every close series and length L ≥ 2, at any index where
the Wilder-smoothed average loss is 0 the computed RSI is 0 (the gain/loss
ratio is replaced by 0, so RSI collapses to its minimum rather than
saturating at 100). -/
theorem c2_amended (xs : List ℚ) (L : Nat) (i : Nat) (hL : 2 ≤ L)
    (h : avgLossAt xs L i = 0) : rsiAt xs L i = 0 := by
  rw [rsiAt, rsAt, if_neg (by simp [h])]
  norm_num

theorem c2_amended_witness :
    2 ≤ 2 ∧ avgLossAt [(1 : ℚ), 2] 2 1 = 0 ∧ rsiAt [(1 : ℚ), 2] 2 1 = 0 := by
  have hz : avgLossAt [(1 : ℚ), 2] 2 1 = 0 := by
    norm_num [avgLossAt, lossAt, deltaAt, List.getD]
  exact ⟨le_refl 2, hz, c2_amended [(1 : ℚ), 2] 2 1 (le_refl 2) hz⟩

/-! ## Low-volume pullback: parameters and indicator series -/

/-- LowVolumePullbackParams (low_volume_pullback.py 19-31). -/
structure Params where
  fastMa : Nat
  slowMa : Nat
  longMa : Nat
  slopeWindow : Nat
  slopeMinPct : ℚ
  volAvgWindow : Nat
  volRatioMax : ℚ
  minBodyPct : ℚ
  minRangePct : Option ℚ
  lookbackBars : Nat
  eps : ℚ
deriving DecidableEq

/-- Python max(x, y) on floats (NaN-free reading): y when x < y, else x. -/
def pymax (x y : ℚ) : ℚ := if x < y then y else x

/-- Series.where(open_ > eps, eps): the open where it exceeds eps, else eps
(low_volume_pullback.py 386). -/
def whereDenom (o eps : ℚ) : ℚ := if eps < o then o else eps

theorem pymax_eq_whereDenom (o e : ℚ) : pymax o e = whereDenom o e := by
  rcases lt_trichotomy o e with h | h | h
  · simp [pymax, whereDenom, h, h.asymm]
  · subst h; simp [pymax, whereDenom]
  · simp [pymax, whereDenom, h, h.asymm]

def rowAt (df : List Row) (i : Nat) : Row := df.getD i ⟨0, 0, 0, 0, 0, 0⟩

def closesOf (df : List Row) : List ℚ := df.map (fun r => r.c)

def volsOf (df : List Row) : List ℚ := df.map (fun r => r.v)

/-- close.rolling(w, min_periods=w).mean() at index i: the mean of
xs[i+1-w .. i] once that window lies inside the series, NaN (none) before. -/
def rollMeanAt (w : Nat) (xs : List ℚ) (i : Nat) : Option ℚ :=
  if w ≤ i + 1 ∧ i < xs.length then
    some ((((xs.drop (i + 1 - w)).take w).sum) / (w : ℚ))
  else none

/-- Mean of the w volumes strictly before bar i.  As-of path: the plain mean
of the slice volume.iloc[i-w:i] (lines 187-188, reached only when i ≥ w, so
the slice holds exactly w values); bulk path:
volume.shift(1).rolling(w, min_periods=w).mean() at i averages the same w
values (and is NaN for i < w, handled by the callers' guards). -/
def trailMean (df : List Row) (w : Nat) (i : Nat) : ℚ :=
  (((volsOf df).drop (i - w)).take w).sum / (w : ℚ)

/-! ## As-of detector (`_detect_low_volume_pullback`, lines 115-220) -/

/-- `_trend_ok` (lines 154-164); pd.isna guards on the rolling means become
matches on the Option values. -/
def trendOkAt (P : Params) (df : List Row) (i : Nat) : Bool :=
  match rollMeanAt P.fastMa (closesOf df) i, rollMeanAt P.slowMa (closesOf df) i,
      rollMeanAt P.longMa (closesOf df) i with
  | some f, some s, some lng =>
    if (rowAt df i).c ≤ f ∨ (rowAt df i).c ≤ s then false
    else if f ≤ s then false
    else if i < P.slopeWindow then false
    else
      match rollMeanAt P.longMa (closesOf df) (i - P.slopeWindow) with
      | some lref => decide (lref * (1 + P.slopeMinPct) < lng)
      | none => false
  | _, _, _ => false

structure Hit where
  barIdx : Nat
  asOf : Int
  volRatioV : ℚ
  bodyPctV : ℚ
deriving DecidableEq

/-- Body of the backward-scan loop (lines 170-206): the hit record for bar i,
or none when any filter rejects it.  The pd.isna(vol_avg) guard cannot fire
in the NaN-free volume model and the `if vol_avg` ternary always takes the
division branch because vol_avg > 0 has already been established. -/
def asOfHitAt (P : Params) (df : List Row) (i : Nat) : Option Hit :=
  if i < P.volAvgWindow then none
  else if ¬ trendOkAt P df i then none
  else if (rowAt df i).o ≤ (rowAt df i).c ∨
      |(rowAt df i).c - (rowAt df i).o| / pymax (rowAt df i).o P.eps <
        P.minBodyPct then none
  else if (match P.minRangePct with
      | none => false
      | some mr =>
        decide (((rowAt df i).hi - (rowAt df i).lo) / pymax (rowAt df i).o P.eps
          < mr)) then none
  else if trailMean df P.volAvgWindow i ≤ 0 then none
  else if (rowAt df i).v ≤ 0 then none
  else if P.volRatioMax < (rowAt df i).v / trailMean df P.volAvgWindow i then none
  else some ⟨i, (rowAt df i).ts,
    (rowAt df i).v / trailMean df P.volAvgWindow i,
    |(rowAt df i).c - (rowAt df i).o| / pymax (rowAt df i).o P.eps⟩

inductive DetectErr
  | noBars
  | invalidAsOf
  | insufficientBars
deriving DecidableEq

inductive DetectResult
  | fail (e : DetectErr)
  | noHits
  | trig (hits : List Hit)
deriving DecidableEq

/-- required_len (lines 140-146). -/
def requiredLen (P : Params) : Nat :=
  max (P.volAvgWindow + 1) (max (P.longMa + P.slopeWindow)
    (max P.slowMa (max P.fastMa P.lookbackBars)))

/-- Indices visited by `range(end_idx, lookback_start - 1, -1)` with
lookback_start = max(0, end_idx - lookback_bars + 1). -/
def scanIdxs (endN lookback : Nat) : List Nat :=
  (List.range (endN + 1 - (endN + 1 - lookback))).map (fun k => endN - k)

/-- `_detect_low_volume_pullback` (lines 115-220): guards, backward scan,
and the triggered/no-hit outcome.  The hits list is ordered most recent
first; the summary fields of the returned dict are those of hits[0]. -/
def detect (df : List Row) (P : Params) (endIdx? : Option Int) : DetectResult :=
  if ((df.length : Int) - 1) < 0 then .fail .noBars
  else if (endIdx?.getD ((df.length : Int) - 1)) < 0 ∨
      ((df.length : Int) - 1) < (endIdx?.getD ((df.length : Int) - 1)) then
    .fail .invalidAsOf
  else if (endIdx?.getD ((df.length : Int) - 1)) + 1 < (requiredLen P : Int) then
    .fail .insufficientBars
  else
    match (scanIdxs (endIdx?.getD ((df.length : Int) - 1)).toNat
        P.lookbackBars).filterMap (asOfHitAt P df) with
    | [] => .noHits
    | h :: t => .trig (h :: t)

/-! ## Bulk hit precomputation (range aggregator, lines 355-408) -/

/-- Elementwise strict greater-than with NaN propagation: a comparison
touching NaN is False, so the subsequent fillna(False) is built in. -/
def oGt (a b : Option ℚ) : Bool :=
  match a, b with
  | some x, some y => decide (y < x)
  | _, _ => false

/-- body_pct of the vectorized path (lines 386-387). -/
def bodyPctB (P : Params) (df : List Row) (i : Nat) : ℚ :=
  |(rowAt df i).c - (rowAt df i).o| / whereDenom (rowAt df i).o P.eps

/-- bearish_ok (lines 388-391). -/
def bearishOkB (P : Params) (df : List Row) (i : Nat) : Bool :=
  decide ((rowAt df i).c < (rowAt df i).o)
    && decide (P.minBodyPct ≤ bodyPctB P df i)
    && (match P.minRangePct with
      | none => true
      | some mr =>
        decide (mr ≤ ((rowAt df i).hi - (rowAt df i).lo) /
          whereDenom (rowAt df i).o P.eps))

/-- long_ma.shift(slope_window) at index i (line 393). -/
def slopeRefB (P : Params) (df : List Row) (i : Nat) : Option ℚ :=
  if P.slopeWindow ≤ i then rollMeanAt P.longMa (closesOf df) (i - P.slopeWindow)
  else none

/-- trend_ok of the vectorized path (lines 394-396), fillna(False) included. -/
def trendOkB (P : Params) (df : List Row) (i : Nat) : Bool :=
  oGt (some (rowAt df i).c) (rollMeanAt P.fastMa (closesOf df) i)
    && oGt (some (rowAt df i).c) (rollMeanAt P.slowMa (closesOf df) i)
    && oGt (rollMeanAt P.fastMa (closesOf df) i)
        (rollMeanAt P.slowMa (closesOf df) i)
    && oGt (rollMeanAt P.longMa (closesOf df) i)
        ((slopeRefB P df i).map (fun x => x * (1 + P.slopeMinPct)))

/-- volume.shift(1).rolling(w, min_periods=w).mean() at index i
(lines 398-402): defined once the w bars strictly before i exist. -/
def volAvgB (P : Params) (df : List Row) (i : Nat) : Option ℚ :=
  if P.volAvgWindow ≤ i ∧ i < df.length then
    some (trailMean df P.volAvgWindow i)
  else none

/-- vol_ok & (vol_ratio <= vol_ratio_max), fillna(False) (lines 403-406). -/
def volumeOkB (P : Params) (df : List Row) (i : Nat) : Bool :=
  (match volAvgB P df i with
    | some a => decide (0 < a)
    | none => false)
    && decide (0 < (rowAt df i).v)
    && (match volAvgB P df i with
      | some a => decide ((rowAt df i).v / a ≤ P.volRatioMax)
      | none => false)

/-- hit = (trend_ok & bearish_ok & volume_ok).fillna(False) (line 408). -/
def hitB (P : Params) (df : List Row) (i : Nat) : Bool :=
  trendOkB P df i && bearishOkB P df i && volumeOkB P df i

/-! ## C6: the two hit classifications agree bar-for-bar -/

theorem trendOk_eq (P : Params) (df : List Row) (i : Nat) :
    trendOkAt P df i = trendOkB P df i := by
  rw [trendOkAt, trendOkB]
  cases hf : rollMeanAt P.fastMa (closesOf df) i with
  | none =>
    cases hs : rollMeanAt P.slowMa (closesOf df) i <;>
      cases hl : rollMeanAt P.longMa (closesOf df) i <;> simp [oGt]
  | some f =>
    cases hs : rollMeanAt P.slowMa (closesOf df) i with
    | none => cases hl : rollMeanAt P.longMa (closesOf df) i <;> simp [oGt]
    | some s =>
      cases hl : rollMeanAt P.longMa (closesOf df) i with
      | none => simp [oGt]
      | some lng =>
        by_cases h1 : (rowAt df i).c ≤ f
        · simp [h1, oGt, not_lt.mpr h1]
        · by_cases h2 : (rowAt df i).c ≤ s
          · simp [h1, h2, oGt, not_lt.mpr h2]
          · by_cases h3 : f ≤ s
            · simp [h1, h2, h3, oGt, not_lt.mpr h3, not_le.mp h1, not_le.mp h2]
            · by_cases h4 : i < P.slopeWindow
              · have : slopeRefB P df i = none := by
                  rw [slopeRefB, if_neg (not_le.mpr h4)]
                simp [h1, h2, h3, h4, oGt, this, not_le.mp h1, not_le.mp h2,
                  not_le.mp h3]
              · have hsl : slopeRefB P df i =
                    rollMeanAt P.longMa (closesOf df) (i - P.slopeWindow) := by
                  rw [slopeRefB, if_pos (not_lt.mp h4)]
                cases hr : rollMeanAt P.longMa (closesOf df) (i - P.slopeWindow) with
                | none =>
                  simp [h1, h2, h3, h4, oGt, hsl, hr, not_le.mp h1,
                    not_le.mp h2, not_le.mp h3]
                | some lref =>
                  simp [h1, h2, h3, h4, oGt, hsl, hr, not_le.mp h1,
                    not_le.mp h2, not_le.mp h3]

theorem asOfHit_isSome_eq_hitB (P : Params) (df : List Row) (i : Nat)
    (hi : i < df.length) :
    (asOfHitAt P df i).isSome = hitB P df i := by
  rw [asOfHitAt, hitB, ← trendOk_eq]
  by_cases h0 : i < P.volAvgWindow
  · rw [if_pos h0]
    have hva : volAvgB P df i = none := by
      rw [volAvgB, if_neg]
      intro hc
      exact absurd hc.1 (not_le.mpr h0)
    simp [volumeOkB, hva]
  · rw [if_neg h0]
    have hva : volAvgB P df i = some (trailMean df P.volAvgWindow i) := by
      rw [volAvgB, if_pos ⟨not_lt.mp h0, hi⟩]
    by_cases h1 : trendOkAt P df i
    · rw [if_neg (by simp [h1]), h1]
      by_cases h2 : (rowAt df i).o ≤ (rowAt df i).c ∨
          |(rowAt df i).c - (rowAt df i).o| / pymax (rowAt df i).o P.eps <
            P.minBodyPct
      · rw [if_pos h2]
        have hb : bearishOkB P df i = false := by
          rw [bearishOkB, bodyPctB, ← pymax_eq_whereDenom]
          rcases h2 with h2 | h2
          · simp [not_lt.mpr h2]
          · simp [not_le.mpr h2]
        simp [hb]
      · push_neg at h2
        obtain ⟨hoc, hbody⟩ := h2
        rw [if_neg (by push_neg; exact ⟨hoc, hbody⟩)]
        have hco : (rowAt df i).c < (rowAt df i).o := hoc
        by_cases h3 : (match P.minRangePct with
          | none => false
          | some mr =>
            decide (((rowAt df i).hi - (rowAt df i).lo) /
              pymax (rowAt df i).o P.eps < mr)) = true
        · rw [if_pos h3]
          have hb : bearishOkB P df i = false := by
            rw [bearishOkB, bodyPctB, ← pymax_eq_whereDenom]
            cases hmr : P.minRangePct with
            | none => rw [hmr] at h3; simp at h3
            | some mr =>
              rw [hmr] at h3
              simp only [decide_eq_true_eq] at h3
              simp [hmr, not_le.mpr h3]
          simp [hb]
        · rw [if_neg h3]
          have hb : bearishOkB P df i = true := by
            rw [bearishOkB, bodyPctB, ← pymax_eq_whereDenom]
            cases hmr : P.minRangePct with
            | none => simp [hco, hbody]
            | some mr =>
              rw [hmr] at h3
              simp only [decide_eq_true_eq, not_lt] at h3
              simp [hmr, hco, hbody, h3]
          rw [hb]
          by_cases h4 : trailMean df P.volAvgWindow i ≤ 0
          · rw [if_pos h4]
            have hv : volumeOkB P df i = false := by
              rw [volumeOkB, hva]
              simp [not_lt.mpr h4]
            simp [hv]
          · rw [if_neg h4]
            by_cases h5 : (rowAt df i).v ≤ 0
            · rw [if_pos h5]
              have hv : volumeOkB P df i = false := by
                rw [volumeOkB]
                simp [not_lt.mpr h5]
              simp [hv]
            · rw [if_neg h5]
              by_cases h6 : P.volRatioMax <
                  (rowAt df i).v / trailMean df P.volAvgWindow i
              · rw [if_pos h6]
                have hv : volumeOkB P df i = false := by
                  rw [volumeOkB, hva]
                  simp [not_le.mpr h6]
                simp [hv]
              · rw [if_neg h6]
                have hv : volumeOkB P df i = true := by
                  rw [volumeOkB, hva]
                  simp [not_le.mp h4, not_le.mp h5, not_lt.mp h6]
                simp [hv]
    · rw [if_pos (by simp [h1])]
      rw [Bool.not_eq_true] at h1
      rw [h1]
      simp

/-- C6: for every bar index examined by the pullback detector, a bar is a
low-volume hit only if the trailing volume average over the volAvgWindow bars
strictly before it is positive, the bar's own volume is positive, and the
volume ratio is at most volRatioMax (the boundary ratio = volRatioMax still
qualifies: only a strictly larger ratio is rejected); and the as-of loop body
and the bulk precomputation classify every bar identically. -/
theorem c6_low_volume_hit (P : Params) (df : List Row) (i : Nat)
    (hw : 1 ≤ P.volAvgWindow) (hi : i < df.length) :
    ((asOfHitAt P df i).isSome ↔ hitB P df i = true)
    ∧ (hitB P df i = true →
        P.volAvgWindow ≤ i
        ∧ 0 < trailMean df P.volAvgWindow i
        ∧ 0 < (rowAt df i).v
        ∧ (rowAt df i).v / trailMean df P.volAvgWindow i ≤ P.volRatioMax) := by
  constructor
  · rw [asOfHit_isSome_eq_hitB P df i hi]
  · intro hhit
    rw [hitB] at hhit
    have hvol : volumeOkB P df i = true := by
      rcases Bool.and_eq_true_iff.mp hhit with ⟨_, hv⟩
      exact hv
    rw [volumeOkB] at hvol
    rcases Bool.and_eq_true_iff.mp hvol with ⟨hvol1, hvol3⟩
    rcases Bool.and_eq_true_iff.mp hvol1 with ⟨hvol0, hvol2⟩
    cases hva : volAvgB P df i with
    | none => rw [hva] at hvol0; simp at hvol0
    | some a =>
      rw [hva] at hvol0 hvol3
      simp only [decide_eq_true_eq] at hvol0 hvol2 hvol3
      have hwi : P.volAvgWindow ≤ i ∧ i < df.length := by
        by_contra hc
        rw [volAvgB, if_neg hc] at hva
        cases hva
      have haeq : a = trailMean df P.volAvgWindow i := by
        rw [volAvgB, if_pos hwi] at hva
        exact (Option.some_injective _ hva).symm
      exact ⟨hwi.1, haeq ▸ hvol0, hvol2, haeq ▸ hvol3⟩

/-! ## Reference scenario data (shared by several witnesses below) -/

/-- The repository tests' reference parameters: fast 2, slow 3, long 4,
slope window 1, vol window 2, ratio cap 0.5, body ≥ 1 percent, lookback 3,
eps 1e-12. -/
def P0 : Params :=
  { fastMa := 2, slowMa := 3, longMa := 4, slopeWindow := 1,
    slopeMinPct := 0, volAvgWindow := 2, volRatioMax := 1/2,
    minBodyPct := 1/100, minRangePct := none, lookbackBars := 3,
    eps := 1/1000000000000 }

/-- A ten-bar daily series: a steady uptrend, a bearish low-volume bar at
index 6 (open 110, close 108, volume 500 against a trailing average of 1000,
ratio exactly 0.5), then forward closes 108, 113.4 and 103.68 that realize
forward returns 0, +5 percent and -4 percent from entry close 108. -/
def df10 : List Row :=
  [⟨0, 100, 101, 99, 100, 1000⟩,
   ⟨1, 101, 102, 100, 101, 1000⟩,
   ⟨2, 102, 103, 101, 102, 1000⟩,
   ⟨3, 103, 104, 102, 103, 1000⟩,
   ⟨4, 104, 105, 103, 104, 1000⟩,
   ⟨5, 105, 106, 104, 105, 1000⟩,
   ⟨6, 110, 111, 107, 108, 500⟩,
   ⟨7, 108, 109, 107, 108, 1000⟩,
   ⟨8, 567/5, 568/5, 566/5, 567/5, 1000⟩,
   ⟨9, 2592/25, 2617/25, 2567/25, 2592/25, 1000⟩]

/-- The first seven bars of the scenario: the low-volume pullback bar is the
last bar of this series. -/
def df7 : List Row := df10.take 7

/-! ## C10: the as-of detector never reads past the end index -/

theorem rollMeanAt_take (w : Nat) (xs : List ℚ) (n i : Nat)
    (hin : i < n) (hix : i < xs.length) :
    rollMeanAt w (xs.take n) i = rollMeanAt w xs i := by
  by_cases hw : w ≤ i + 1
  · have hlen : i < (xs.take n).length := by
      rw [List.length_take]; exact lt_min hin hix
    rw [rollMeanAt, rollMeanAt, if_pos ⟨hw, hlen⟩, if_pos ⟨hw, hix⟩]
    have hwin : ((xs.take n).drop (i + 1 - w)).take w =
        (xs.drop (i + 1 - w)).take w := by
      rw [List.drop_take, List.take_take, min_eq_left (by omega)]
    rw [hwin]
  · rw [rollMeanAt, rollMeanAt, if_neg (fun hc => hw hc.1),
      if_neg (fun hc => hw hc.1)]

theorem rowAt_take (df : List Row) (n i : Nat) (hin : i < n) :
    rowAt (df.take n) i = rowAt df i := by
  rw [rowAt, rowAt, List.getD_eq_getElem?_getD, List.getD_eq_getElem?_getD,
    List.getElem?_take, if_pos hin]

theorem closesOf_take (df : List Row) (n : Nat) :
    closesOf (df.take n) = (closesOf df).take n := by
  rw [closesOf, closesOf, List.map_take]

theorem volsOf_take (df : List Row) (n : Nat) :
    volsOf (df.take n) = (volsOf df).take n := by
  rw [volsOf, volsOf, List.map_take]

theorem trailMean_take (df : List Row) (w n i : Nat) (hw : w ≤ i) (hin : i < n) :
    trailMean (df.take n) w i = trailMean df w i := by
  rw [trailMean, trailMean, volsOf_take]
  have hwin : (((volsOf df).take n).drop (i - w)).take w =
      ((volsOf df).drop (i - w)).take w := by
    rw [List.drop_take, List.take_take, min_eq_left (by omega)]
  rw [hwin]

theorem trendOkAt_take (P : Params) (df : List Row) (n i : Nat)
    (hin : i < n) (hix : i < df.length) :
    trendOkAt P (df.take n) i = trendOkAt P df i := by
  have hlen : i < (closesOf df).length := by
    rw [closesOf, List.length_map]; exact hix
  have hlen2 : i - P.slopeWindow < (closesOf df).length :=
    lt_of_le_of_lt (Nat.sub_le i _) hlen
  rw [trendOkAt, trendOkAt, closesOf_take,
    rollMeanAt_take P.fastMa (closesOf df) n i hin hlen,
    rollMeanAt_take P.slowMa (closesOf df) n i hin hlen,
    rollMeanAt_take P.longMa (closesOf df) n i hin hlen,
    rollMeanAt_take P.longMa (closesOf df) n (i - P.slopeWindow)
      (lt_of_le_of_lt (Nat.sub_le i _) hin) hlen2,
    rowAt_take df n i hin]

theorem asOfHitAt_take (P : Params) (df : List Row) (n i : Nat)
    (hin : i < n) (hix : i < df.length) :
    asOfHitAt P (df.take n) i = asOfHitAt P df i := by
  rw [asOfHitAt, asOfHitAt]
  by_cases h0 : i < P.volAvgWindow
  · rw [if_pos h0, if_pos h0]
  · rw [if_neg h0, if_neg h0, trendOkAt_take P df n i hin hix,
      rowAt_take df n i hin,
      trailMean_take df P.volAvgWindow n i (not_lt.mp h0) hin]

theorem detect_take (df : List Row) (P : Params) (e : Nat) (he : e < df.length) :
    detect (df.take (e + 1)) P (some (e : Int)) = detect df P (some (e : Int)) := by
  have hlen : (df.take (e + 1)).length = e + 1 := by
    rw [List.length_take]
    exact min_eq_left (Nat.succ_le_of_lt he)
  have hte : ((e : Int)).toNat = e := Int.toNat_natCast e
  rw [detect, detect, hlen]
  simp only [Option.getD_some]
  rw [if_neg (show ¬((((e + 1 : Nat) : Int)) - 1 < 0) by omega),
    if_neg (show ¬((e : Int) < 0 ∨ (((e + 1 : Nat) : Int)) - 1 < (e : Int)) by
      omega),
    if_neg (show ¬(((df.length : Int)) - 1 < 0) by omega),
    if_neg (show ¬((e : Int) < 0 ∨ ((df.length : Int)) - 1 < (e : Int)) by
      omega)]
  by_cases hreq : (e : Int) + 1 < (requiredLen P : Int)
  · rw [if_pos hreq, if_pos hreq]
  · rw [if_neg hreq, if_neg hreq]
    have hscan : (scanIdxs ((e : Int)).toNat P.lookbackBars).filterMap
        (asOfHitAt P (df.take (e + 1))) =
        (scanIdxs ((e : Int)).toNat P.lookbackBars).filterMap (asOfHitAt P df) := by
      apply List.filterMap_congr
      intro j hj
      rw [hte] at hj
      have hje : j ≤ e := by
        simp only [scanIdxs, List.mem_map, List.mem_range] at hj
        rcases hj with ⟨k, hk, hkj⟩
        omega
      exact asOfHitAt_take P df (e + 1) j (by omega) (by omega)
    rw [hscan]

/-- C10: two bar series that agree bar-for-bar up to the end index are
classified identically by the as-of pullback detection — the detector never
reads bars after the end index, even though later bars may differ or be
absent. -/
theorem c10_no_lookahead (df1 df2 : List Row) (P : Params) (e : Nat)
    (h1 : e < df1.length) (h2 : e < df2.length)
    (hagree : df1.take (e + 1) = df2.take (e + 1)) :
    detect df1 P (some (e : Int)) = detect df2 P (some (e : Int)) := by
  rw [← detect_take df1 P e h1, ← detect_take df2 P e h2, hagree]

theorem c10_witness :
    detect df10 P0 (some ((6 : Nat) : Int)) =
      detect df7 P0 (some ((6 : Nat) : Int)) :=
  c10_no_lookahead df10 df7 P0 6 (by simp [df10]) (by simp [df7, df10])
    (by simp [df7, List.take_take])

/-! ## C7: as-of error conditions -/

/-- C7: on a nonempty bar series (BarSeries carry at least one bar), the
as-of detection fails with InvalidAsOf when the requested end index is
negative or past the last bar; fails with InsufficientBars when the end index
is in range but end_index + 1 is below the required history
max(volAvgWindow+1, longMA+slopeWindow, slowMA, fastMA, lookbackBars); and
when neither condition holds it fails with none of these errors. -/
theorem c7_asof_errors (df : List Row) (P : Params) (e : Int) (hne : df ≠ []) :
    ((e < 0 ∨ (df.length : Int) - 1 < e) →
        detect df P (some e) = .fail .invalidAsOf)
    ∧ (0 ≤ e → e ≤ (df.length : Int) - 1 → e + 1 < (requiredLen P : Int) →
        detect df P (some e) = .fail .insufficientBars)
    ∧ (0 ≤ e → e ≤ (df.length : Int) - 1 → (requiredLen P : Int) ≤ e + 1 →
        detect df P (some e) ≠ .fail .invalidAsOf
        ∧ detect df P (some e) ≠ .fail .insufficientBars
        ∧ detect df P (some e) ≠ .fail .noBars) := by
  have hlen : 1 ≤ df.length := by
    cases df with
    | nil => exact absurd rfl hne
    | cons a l => simp
  refine ⟨?_, ?_, ?_⟩
  · intro h
    rw [detect]
    simp only [Option.getD_some]
    rw [if_neg (by omega), if_pos h]
  · intro h0 h1 h2
    rw [detect]
    simp only [Option.getD_some]
    rw [if_neg (by omega), if_neg (by omega), if_pos h2]
  · intro h0 h1 h2
    rw [detect]
    simp only [Option.getD_some]
    rw [if_neg (by omega), if_neg (by omega), if_neg (by omega)]
    cases hm : (scanIdxs e.toNat P.lookbackBars).filterMap (asOfHitAt P df) with
    | nil => exact ⟨by simp, by simp, by simp⟩
    | cons h t => exact ⟨by simp, by simp, by simp⟩

theorem c7_witness :
    detect df7 P0 (some (-1)) = .fail .invalidAsOf
    ∧ detect df7 P0 (some 2) = .fail .insufficientBars
    ∧ (detect df7 P0 (some 6) ≠ .fail .invalidAsOf
      ∧ detect df7 P0 (some 6) ≠ .fail .insufficientBars
      ∧ detect df7 P0 (some 6) ≠ .fail .noBars) := by
  have hne : df7 ≠ [] := by simp [df7, df10]
  have hlen : df7.length = 7 := by simp [df7, df10]
  refine ⟨(c7_asof_errors df7 P0 (-1) hne).1 (Or.inl (by norm_num)),
    (c7_asof_errors df7 P0 2 hne).2.1 (by norm_num) (by rw [hlen]; norm_num)
      (by norm_num [requiredLen, P0]),
    (c7_asof_errors df7 P0 6 hne).2.2 (by norm_num) (by rw [hlen]; norm_num)
      (by norm_num [requiredLen, P0])⟩

/-! ## Single-signal forward backtester
(`backtest_low_volume_pullback_on_df`, lines 223-301) -/

inductive BtFail
  | noBars
  | asOfOutOfRange
  | detectFail (e : DetectErr)
  | notTriggered
  | noHits
  | invalidEntryExec
deriving DecidableEq

structure FwdPoint where
  day : Nat
  ts : Int
  close : ℚ
  ret : ℚ
deriving DecidableEq

inductive BtOut
  | fail (e : BtFail)
  | noEntryBar (endIdx signalIdx : Nat) (signalTs : Int)
  | ok (endIdx signalIdx : Nat) (signalTs : Int) (entry : ℚ) (fwd : List FwdPoint)
deriving DecidableEq

/-- df.index.searchsorted(cutoff, side="right") - 1 on the sorted index:
the position of the last bar at or before the cutoff. -/
def endPosOf (df : List Row) (cutoff : Int) : Int :=
  ((df.filter (fun b => decide (b.ts ≤ cutoff))).length : Int) - 1

/-- The forward list (lines 280-289): day offsets 1..horizon while the
series lasts; ret falls back to 0.0 when the entry price is falsy (0.0). -/
def fwdPoints (df : List Row) (signalIdx : Nat) (entry : ℚ)
    (horizon : Nat) : List FwdPoint :=
  (((List.range horizon).map (fun d => d + 1)).takeWhile
      (fun d => decide (signalIdx + d < df.length))).map
    (fun d =>
      { day := d, ts := (rowAt df (signalIdx + d)).ts,
        close := (rowAt df (signalIdx + d)).c,
        ret := if entry = 0 then 0 else (rowAt df (signalIdx + d)).c / entry - 1 })

def mkOk (df : List Row) (endPos : Int) (h0 : Hit) (entry : ℚ)
    (horizonI : Int) : BtOut :=
  .ok endPos.toNat h0.barIdx h0.asOf entry
    (fwdPoints df h0.barIdx entry horizonI.toNat)

/-- `backtest_low_volume_pullback_on_df`: locate the last bar at or before
the cutoff, run the as-of detection there, then price the entry under the
requested execution policy and collect forward returns. -/
def backtestOnDf (df : List Row) (P : Params) (cutoff : Int) (horizonI : Int)
    (ee : String) : BtOut :=
  if df.isEmpty then .fail .noBars
  else if endPosOf df cutoff < 0 then .fail .asOfOutOfRange
  else
    match detect df P (some (endPosOf df cutoff)) with
    | .fail e => .fail (.detectFail e)
    | .noHits => .fail .notTriggered
    | .trig hits =>
      match hits with
      | [] => .fail .noHits
      | h0 :: _ =>
        if ee = "close" then
          mkOk df (endPosOf df cutoff) h0 ((rowAt df h0.barIdx).c) horizonI
        else if ee = "next_open" then
          if df.length ≤ h0.barIdx + 1 then
            .noEntryBar (endPosOf df cutoff).toNat h0.barIdx h0.asOf
          else
            mkOk df (endPosOf df cutoff) h0 ((rowAt df (h0.barIdx + 1)).o)
              horizonI
        else .fail .invalidEntryExec

/-- C9: when the single-signal forward backtest triggers and its primary hit
is the last bar of the series, entry policy next_open fails with NoEntryBar
(there is no following bar to supply an open price), while policy close
succeeds with the hit bar's own close as the entry price. -/
theorem c9_no_entry_bar (df : List Row) (P : Params) (cutoff : Int)
    (horizonI : Int) (hits : List Hit) (h0 : Hit)
    (hdet : detect df P (some (endPosOf df cutoff)) = .trig (h0 :: hits))
    (hlast : h0.barIdx + 1 = df.length) :
    backtestOnDf df P cutoff horizonI "next_open" =
      .noEntryBar (endPosOf df cutoff).toNat h0.barIdx h0.asOf
    ∧ backtestOnDf df P cutoff horizonI "close" =
      .ok (endPosOf df cutoff).toNat h0.barIdx h0.asOf ((rowAt df h0.barIdx).c)
        (fwdPoints df h0.barIdx ((rowAt df h0.barIdx).c) horizonI.toNat) := by
  have hne : ¬ df.isEmpty := by
    intro hemp
    rw [List.isEmpty_iff.mp hemp] at hdet
    rw [detect] at hdet
    simp at hdet
  have hpos : ¬ endPosOf df cutoff < 0 := by
    intro hneg
    rw [detect] at hdet
    have hlen1 : 1 ≤ df.length := by
      cases hd : df with
      | nil => rw [hd] at hne; simp at hne
      | cons a l => simp
    rw [if_neg (by omega), Option.getD_some, if_pos (Or.inl hneg)] at hdet
    cases hdet
  constructor
  · rw [backtestOnDf, if_neg hne, if_neg hpos, hdet]
    simp [← hlast]
  · rw [backtestOnDf, if_neg hne, if_neg hpos, hdet]
    simp [mkOk]

/-- Concrete evaluation: on the seven-bar scenario the as-of detection at end
index 6 triggers with a single hit at bar 6 (ratio exactly 1/2, body 2/110). -/
theorem detect_df7_eval :
    detect df7 P0 (some 6) = .trig [⟨6, 6, 1/2, 1/55⟩] := by
  have h6 : asOfHitAt P0 df7 6 = some ⟨6, 6, 1/2, 1/55⟩ := by
    norm_num [asOfHitAt, trendOkAt, rollMeanAt, trailMean, pymax, closesOf,
      volsOf, rowAt, P0, df7, df10, List.getD]
  have h5 : asOfHitAt P0 df7 5 = none := by
    norm_num [asOfHitAt, trendOkAt, rollMeanAt, trailMean, pymax, closesOf,
      volsOf, rowAt, P0, df7, df10, List.getD]
  have h4 : asOfHitAt P0 df7 4 = none := by
    norm_num [asOfHitAt, trendOkAt, rollMeanAt, trailMean, pymax, closesOf,
      volsOf, rowAt, P0, df7, df10, List.getD]
  have hscan : scanIdxs ((6 : Int)).toNat P0.lookbackBars = [6, 5, 4] := by
    simp [scanIdxs, P0, List.range_succ]
  have hlen : df7.length = 7 := by simp [df7, df10]
  rw [detect]
  simp only [Option.getD_some, hlen]
  rw [if_neg (by norm_num), if_neg (by norm_num),
    if_neg (by norm_num [requiredLen, P0]), hscan]
  simp [List.filterMap_cons, h6, h5, h4]

theorem c9_witness :
    backtestOnDf df7 P0 6 3 "next_open" =
      .noEntryBar ((endPosOf df7 6)).toNat 6 6
    ∧ backtestOnDf df7 P0 6 3 "close" =
      .ok ((endPosOf df7 6)).toNat 6 6 ((rowAt df7 6).c)
        (fwdPoints df7 6 ((rowAt df7 6).c) ((3 : Int)).toNat) := by
  have hend : endPosOf df7 6 = 6 := by
    simp [endPosOf, df7, df10]
  have hdet : detect df7 P0 (some (endPosOf df7 6)) =
      .trig [⟨6, 6, 1/2, 1/55⟩] := by
    rw [hend]; exact detect_df7_eval
  exact c9_no_entry_bar df7 P0 6 3 [] ⟨6, 6, 1/2, 1/55⟩ hdet (by simp [df7, df10])

theorem c6_witness :
    ((asOfHitAt P0 df10 6).isSome ↔ hitB P0 df10 6 = true)
    ∧ (hitB P0 df10 6 = true →
        P0.volAvgWindow ≤ 6
        ∧ 0 < trailMean df10 P0.volAvgWindow 6
        ∧ 0 < (rowAt df10 6).v
        ∧ (rowAt df10 6).v / trailMean df10 P0.volAvgWindow 6 ≤
            P0.volRatioMax) :=
  c6_low_volume_hit P0 df10 6 (by norm_num [P0]) (by simp [df10])

/-! ## Range backtest aggregator
(`backtest_low_volume_pullback_range_on_df`, lines 304-485) -/

inductive RErr
  | invalidHorizon
  | invalidEntryExec
deriving DecidableEq

inductive Bucket
  | downGt
  | downSm
  | upSm
  | upGt
deriving DecidableEq

structure BucketCounts where
  downGt : Nat
  downSm : Nat
  upSm : Nat
  upGt : Nat
deriving DecidableEq

def BucketCounts.incr (b : BucketCounts) : Bucket → BucketCounts
  | .downGt => { b with downGt := b.downGt + 1 }
  | .downSm => { b with downSm := b.downSm + 1 }
  | .upSm => { b with upSm := b.upSm + 1 }
  | .upGt => { b with upGt := b.upGt + 1 }

def BucketCounts.total (b : BucketCounts) : Nat :=
  b.downGt + b.downSm + b.upSm + b.upGt

/-- The counts dictionary; the entry for forward day d sits at position
d - 1 of each list. -/
structure RangeCounts where
  evaluatedBars : Nat
  triggeredEvents : Nat
  sampleByDay : List Nat
  winByDay : List Nat
  bucketByDay : List BucketCounts
deriving DecidableEq

def initCounts (horizon : Nat) : RangeCounts :=
  { evaluatedBars := 0, triggeredEvents := 0,
    sampleByDay := List.replicate horizon 0,
    winByDay := List.replicate horizon 0,
    bucketByDay := List.replicate horizon ⟨0, 0, 0, 0⟩ }

/-- The bucket-assignment chain (lines 469-476). -/
def bucketFor (tol threshold ret : ℚ) : Bucket :=
  if ret ≤ -threshold + tol then .downGt
  else if ret < -tol then .downSm
  else if ret ≤ threshold + tol then .upSm
  else .upGt

def incAt (l : List Nat) (i : Nat) : List Nat := l.set i (l.getD i 0 + 1)

def bucketIncAt (l : List BucketCounts) (i : Nat) (b : Bucket) :
    List BucketCounts :=
  l.set i ((l.getD i ⟨0, 0, 0, 0⟩).incr b)

/-- One forward day of one signal (loop body, lines 465-477): bump the day's
sample count, its win count when the return is positive, and its bucket. -/
def recordDay (tol threshold : ℚ) (acc : RangeCounts) (d : Nat) (ret : ℚ) :
    RangeCounts :=
  { acc with
    sampleByDay := incAt acc.sampleByDay (d - 1),
    winByDay := if 0 < ret then incAt acc.winByDay (d - 1) else acc.winByDay,
    bucketByDay :=
      bucketIncAt acc.bucketByDay (d - 1) (bucketFor tol threshold ret) }

/-- The forward-day loop of one signal (lines 456-477): days 1..horizon,
stopping when the series ends (a NaN forward close, the other stop
condition, cannot arise in the ℚ model). -/
def recordForward (df : List Row) (tol threshold entry : ℚ)
    (signalIdx horizon : Nat) (acc : RangeCounts) : RangeCounts :=
  (((List.range horizon).map (fun d => d + 1)).takeWhile
      (fun d => decide (signalIdx + d < df.length))).foldl
    (fun a d =>
      recordDay tol threshold a d ((rowAt df (signalIdx + d)).c / entry - 1))
    acc

/-- The backward lookback scan for the most recent hit (lines 425-436). -/
def findSignal (P : Params) (df : List Row) (asof : Nat) : Option Nat :=
  if P.lookbackBars ≤ 1 then
    if hitB P df asof then some asof else none
  else (scanIdxs asof P.lookbackBars).find? (fun i => hitB P df i)

/-- One as-of iteration of the aggregation loop (lines 422-477): count the
bar, find its signal, price the entry, and record forward days.  An invalid
entry-execution policy aborts the whole call from inside the loop. -/
def rangeStep (P : Params) (df : List Row) (ee : String) (tol threshold : ℚ)
    (horizon : Nat) (acc : RangeCounts) (asof : Nat) :
    Except RErr RangeCounts :=
  match findSignal P df asof with
  | none => .ok { acc with evaluatedBars := acc.evaluatedBars + 1 }
  | some sig =>
    let acc2 : RangeCounts :=
      { acc with
        evaluatedBars := acc.evaluatedBars + 1
        triggeredEvents := acc.triggeredEvents + 1 }
    if ee = "close" then
      if (rowAt df sig).c ≤ 0 then .ok acc2
      else
        .ok (recordForward df tol threshold ((rowAt df sig).c) sig horizon acc2)
    else if ee = "next_open" then
      if df.length ≤ sig + 1 then .ok acc2
      else if (rowAt df (sig + 1)).o ≤ 0 then .ok acc2
      else
        .ok (recordForward df tol threshold ((rowAt df (sig + 1)).o) sig
          horizon acc2)
    else .error .invalidEntryExec

/-- searchsorted(start, side="left") on the sorted index. -/
def countLT (df : List Row) (t : Int) : Nat :=
  (df.filter (fun b => decide (b.ts < t))).length

/-- searchsorted(end, side="right") on the sorted index. -/
def countLE (df : List Row) (t : Int) : Nat :=
  (df.filter (fun b => decide (b.ts ≤ t))).length

/-- `backtest_low_volume_pullback_range_on_df`: horizon and window guards,
then the fold of `rangeStep` over the evaluated as-of positions
eval_start..end_pos. -/
def backtestRange (df : List Row) (P : Params) (startDt endDt : Int)
    (horizonI : Int) (ee : String) (threshold : ℚ) :
    Except RErr RangeCounts :=
  if horizonI < 1 then .error .invalidHorizon
  else if df.isEmpty then .ok (initCounts horizonI.toNat)
  else if (countLE df endDt : Int) - 1 < 0
      ∨ (df.length : Int) - 1 < (countLT df startDt : Int)
      ∨ (countLE df endDt : Int) - 1 < (countLT df startDt : Int) then
    .ok (initCounts horizonI.toNat)
  else if ((countLE df endDt : Int) - 1).toNat <
      max (countLT df startDt) (requiredLen P - 1) then
    .ok (initCounts horizonI.toNat)
  else
    (List.range' (max (countLT df startDt) (requiredLen P - 1))
        (((countLE df endDt : Int) - 1).toNat + 1 -
          max (countLT df startDt) (requiredLen P - 1))).foldlM
      (rangeStep P df ee (pymax P.eps (1/1000000000000)) threshold
        horizonI.toNat)
      (initCounts horizonI.toNat)

/-! ## C3: which inputs make the range aggregator fail -/

theorem rangeStep_ok_of_valid (P : Params) (df : List Row) (ee : String)
    (tol threshold : ℚ) (horizon : Nat) (acc : RangeCounts) (asof : Nat)
    (hee : ee = "close" ∨ ee = "next_open") :
    ∃ c, rangeStep P df ee tol threshold horizon acc asof = .ok c := by
  rw [rangeStep]
  cases hfs : findSignal P df asof with
  | none => exact ⟨_, rfl⟩
  | some sig =>
    dsimp only
    rcases hee with h | h <;> subst h
    · rw [if_pos rfl]
      by_cases hc : (rowAt df sig).c ≤ 0
      · exact ⟨_, by rw [if_pos hc]⟩
      · exact ⟨_, by rw [if_neg hc]⟩
    · rw [if_neg (by decide), if_pos rfl]
      by_cases h1 : df.length ≤ sig + 1
      · exact ⟨_, by rw [if_pos h1]⟩
      · by_cases h2 : (rowAt df (sig + 1)).o ≤ 0
        · exact ⟨_, by rw [if_neg h1, if_pos h2]⟩
        · exact ⟨_, by rw [if_neg h1, if_neg h2]⟩

theorem rangeStep_error_classify (P : Params) (df : List Row) (ee : String)
    (tol threshold : ℚ) (horizon : Nat) (acc : RangeCounts) (asof : Nat)
    (e : RErr)
    (h : rangeStep P df ee tol threshold horizon acc asof = .error e) :
    e = .invalidEntryExec ∧ ee ≠ "close" ∧ ee ≠ "next_open" := by
  by_cases h1 : ee = "close"
  · rcases rangeStep_ok_of_valid P df ee tol threshold horizon acc asof
      (Or.inl h1) with ⟨c, hc⟩
    rw [hc] at h
    cases h
  · by_cases h2 : ee = "next_open"
    · rcases rangeStep_ok_of_valid P df ee tol threshold horizon acc asof
        (Or.inr h2) with ⟨c, hc⟩
      rw [hc] at h
      cases h
    · rw [rangeStep] at h
      cases hfs : findSignal P df asof with
      | none => rw [hfs] at h; cases h
      | some sig =>
        rw [hfs] at h
        dsimp only at h
        rw [if_neg h1, if_neg h2] at h
        exact ⟨(Except.error.inj h).symm, h1, h2⟩

theorem foldlM_rangeStep_ok (P : Params) (df : List Row) (ee : String)
    (tol threshold : ℚ) (horizon : Nat)
    (hee : ee = "close" ∨ ee = "next_open") (l : List Nat) (acc : RangeCounts) :
    ∃ c, l.foldlM (rangeStep P df ee tol threshold horizon) acc = .ok c := by
  induction l generalizing acc with
  | nil => exact ⟨acc, rfl⟩
  | cons x l ih =>
    rcases rangeStep_ok_of_valid P df ee tol threshold horizon acc x hee
      with ⟨c, hc⟩
    rw [List.foldlM_cons, hc]
    exact ih c

theorem foldlM_rangeStep_error (P : Params) (df : List Row) (ee : String)
    (tol threshold : ℚ) (horizon : Nat) (l : List Nat) (acc : RangeCounts)
    (e : RErr)
    (h : l.foldlM (rangeStep P df ee tol threshold horizon) acc = .error e) :
    ∃ a x, rangeStep P df ee tol threshold horizon a x = .error e := by
  induction l generalizing acc with
  | nil => cases h
  | cons x l ih =>
    cases hf : rangeStep P df ee tol threshold horizon acc x with
    | error e2 =>
      rw [List.foldlM_cons, hf] at h
      have he2 : e2 = e := Except.error.inj h
      exact ⟨acc, x, by rw [hf, he2]⟩
    | ok c =>
      rw [List.foldlM_cons, hf] at h
      exact ih c h

/-- C3 amended: the range aggregator returns an error only for horizon < 1
(InvalidHorizon) or an entry-execution policy other than close/next_open
(InvalidEntryExecution).  InvalidHorizon is decided at the top level
independent of the data; InvalidEntryExecution, however, is raised from
inside the evaluation loop only when some bar triggers, so an invalid policy
with no triggering bar returns a normal summary.  With a valid horizon and
policy the call never fails — bars with entry price ≤ 0 or exhausted forward
history are skipped, not errors. -/
theorem c3_amended (df : List Row) (P : Params) (startDt endDt : Int)
    (horizonI : Int) (ee : String) (threshold : ℚ) :
    (horizonI < 1 →
      backtestRange df P startDt endDt horizonI ee threshold =
        .error .invalidHorizon)
    ∧ (1 ≤ horizonI → (ee = "close" ∨ ee = "next_open") →
      ∃ c, backtestRange df P startDt endDt horizonI ee threshold = .ok c)
    ∧ (∀ e, backtestRange df P startDt endDt horizonI ee threshold = .error e →
      (e = .invalidHorizon ∧ horizonI < 1)
      ∨ (e = .invalidEntryExec ∧ ee ≠ "close" ∧ ee ≠ "next_open"
          ∧ 1 ≤ horizonI)) := by
  refine ⟨?_, ?_, ?_⟩
  · intro h
    rw [backtestRange, if_pos h]
  · intro h hee
    rw [backtestRange, if_neg (by omega)]
    by_cases h1 : df.isEmpty
    · rw [if_pos h1]; exact ⟨_, rfl⟩
    · rw [if_neg h1]
      by_cases h2 : (countLE df endDt : Int) - 1 < 0
          ∨ (df.length : Int) - 1 < (countLT df startDt : Int)
          ∨ (countLE df endDt : Int) - 1 < (countLT df startDt : Int)
      · rw [if_pos h2]; exact ⟨_, rfl⟩
      · rw [if_neg h2]
        by_cases h3 : ((countLE df endDt : Int) - 1).toNat <
            max (countLT df startDt) (requiredLen P - 1)
        · rw [if_pos h3]; exact ⟨_, rfl⟩
        · rw [if_neg h3]
          exact foldlM_rangeStep_ok P df ee _ threshold _ hee _ _
  · intro e h
    by_cases h0 : horizonI < 1
    · rw [backtestRange, if_pos h0] at h
      have : RErr.invalidHorizon = e := Except.error.inj h
      exact Or.inl ⟨this.symm, h0⟩
    · rw [backtestRange, if_neg h0] at h
      by_cases h1 : df.isEmpty
      · rw [if_pos h1] at h; cases h
      · rw [if_neg h1] at h
        by_cases h2 : (countLE df endDt : Int) - 1 < 0
            ∨ (df.length : Int) - 1 < (countLT df startDt : Int)
            ∨ (countLE df endDt : Int) - 1 < (countLT df startDt : Int)
        · rw [if_pos h2] at h; cases h
        · rw [if_neg h2] at h
          by_cases h3 : ((countLE df endDt : Int) - 1).toNat <
              max (countLT df startDt) (requiredLen P - 1)
          · rw [if_pos h3] at h; cases h
          · rw [if_neg h3] at h
            rcases foldlM_rangeStep_error P df ee _ threshold _ _ _ e h
              with ⟨a, x, hx⟩
            rcases rangeStep_error_classify P df ee _ threshold _ a x e hx
              with ⟨he, hc, hn⟩
            exact Or.inr ⟨he, hc, hn, by omega⟩

theorem hitB_df7_6 : hitB P0 df7 6 = true := by
  norm_num [hitB, trendOkB, bearishOkB, volumeOkB, volAvgB, slopeRefB, oGt,
    rollMeanAt, trailMean, bodyPctB, whereDenom, closesOf, volsOf, rowAt,
    P0, df7, df10, List.getD]

theorem findSignal_df7_6 : findSignal P0 df7 6 = some 6 := by
  rw [findSignal, if_neg (by norm_num [P0])]
  have hscan : scanIdxs 6 P0.lookbackBars = [6, 5, 4] := by
    simp [scanIdxs, P0, List.range_succ]
  rw [hscan]
  simp [List.find?_cons_of_pos, hitB_df7_6]

/-- C3 counterexample: an invalid entry-execution policy is NOT decided at
the top level independent of the data — on the empty series (and on any
window with no triggering bar) the call returns a normal zero summary
instead of failing, while the same call on the triggering seven-bar series
does error: the policy check only runs once a bar triggers. -/
theorem c3_counterexample :
    backtestRange [] P0 0 0 1 "bogus" (1/20) = .ok (initCounts 1)
    ∧ backtestRange df7 P0 6 6 1 "bogus" (1/20) = .error .invalidEntryExec := by
  constructor
  · simp [backtestRange]
  · have hLE : countLE df7 6 = 7 := by simp [countLE, df7, df10]
    have hLT : countLT df7 6 = 6 := by simp [countLT, df7, df10]
    have hlen : df7.length = 7 := by simp [df7, df10]
    rw [backtestRange, if_neg (by norm_num), if_neg (by simp [df7, df10]),
      hLE, hLT, hlen]
    rw [if_neg (by norm_num), if_neg (by norm_num [requiredLen, P0])]
    have hmax : max 6 (requiredLen P0 - 1) = 6 := by norm_num [requiredLen, P0]
    rw [hmax]
    have hrange : List.range' 6 ((((7 : Nat) : Int) - 1).toNat + 1 - 6) =
        [6] := by simp
    rw [hrange, List.foldlM_cons, rangeStep, findSignal_df7_6]
    dsimp only
    rw [if_neg (by decide), if_neg (by decide)]
    rfl

theorem c3_amended_witness :
    backtestRange [] P0 0 0 0 "close" 0 = .error .invalidHorizon
    ∧ ∃ c, backtestRange [] P0 0 0 1 "close" 0 = .ok c :=
  ⟨(c3_amended [] P0 0 0 0 "close" 0).1 (by norm_num),
    (c3_amended [] P0 0 0 1 "close" 0).2.1 (by norm_num) (Or.inl rfl)⟩

/-! ## C4: bucket assignment -/

theorem hitB_df10_6 : hitB P0 df10 6 = true := by
  norm_num [hitB, trendOkB, bearishOkB, volumeOkB, volAvgB, slopeRefB, oGt,
    rollMeanAt, trailMean, bodyPctB, whereDenom, closesOf, volsOf, rowAt,
    P0, df10, List.getD]

theorem findSignal_df10_6 : findSignal P0 df10 6 = some 6 := by
  rw [findSignal, if_neg (by norm_num [P0])]
  have hscan : scanIdxs 6 P0.lookbackBars = [6, 5, 4] := by
    simp [scanIdxs, P0, List.range_succ]
  rw [hscan]
  simp [List.find?_cons_of_pos, hitB_df10_6]

/-- The counts the scenario series produces on window day 6, horizon 3,
threshold 5 percent, entry at close: one evaluated bar, one trigger, returns
0, +5 percent and -4 percent at days 1..3 giving buckets up_0_5, up_0_5 and
down_0_5 and wins {1: 0, 2: 1, 3: 0}. -/
def scenarioCounts : RangeCounts :=
  ⟨1, 1, [1, 1, 1], [0, 1, 0], [⟨0, 0, 1, 0⟩, ⟨0, 0, 1, 0⟩, ⟨0, 1, 0, 0⟩]⟩

theorem backtestRange_df10_eval :
    backtestRange df10 P0 6 6 3 "close" (1/20) = .ok scenarioCounts := by
  have hLE : countLE df10 6 = 7 := by simp [countLE, df10]
  have hLT : countLT df10 6 = 6 := by simp [countLT, df10]
  have hlen : df10.length = 10 := by simp [df10]
  rw [backtestRange, if_neg (by norm_num), if_neg (by simp [df10]),
    hLE, hLT, hlen]
  rw [if_neg (by norm_num), if_neg (by norm_num [requiredLen, P0])]
  have hmax : max 6 (requiredLen P0 - 1) = 6 := by norm_num [requiredLen, P0]
  rw [hmax]
  have hrange : List.range' 6 ((((7 : Nat) : Int) - 1).toNat + 1 - 6) =
      [6] := by simp
  rw [hrange, List.foldlM_cons, rangeStep, findSignal_df10_6]
  dsimp only
  rw [if_pos rfl, if_neg (by norm_num [rowAt, df10, List.getD])]
  norm_num [recordForward, recordDay, bucketFor, incAt, bucketIncAt, rowAt,
    df10, List.getD, pymax, P0, initCounts, scenarioCounts, List.range_succ,
    List.takeWhile]
  refine ⟨?_, ?_, ?_⟩ <;>
    simp [List.replicate_succ, List.set, BucketCounts.incr]

/-- C4 counterexample: the claimed bucket iffs fail for degenerate
thresholds.  With threshold 0 (tolerance 1e-12) the recorded return 0
satisfies the claimed up_0_5 membership -tol ≤ 0 ≤ t+tol, yet the chain's
first branch 0 ≤ -t+tol already matches, so the code assigns down_gt_5; the
full aggregator on the scenario series indeed increments down_gt_5 — not
up_0_5 — at day 1. -/
theorem c4_counterexample :
    (bucketFor (pymax (1/1000000000000) (1/1000000000000)) 0 0 = .downGt
      ∧ -(pymax (1/1000000000000) (1/1000000000000)) ≤ (0 : ℚ)
      ∧ (0 : ℚ) ≤ 0 + pymax (1/1000000000000) (1/1000000000000))
    ∧ backtestRange df10 P0 6 6 3 "close" 0 =
      .ok ⟨1, 1, [1, 1, 1], [0, 1, 0],
        [⟨1, 0, 0, 0⟩, ⟨0, 0, 0, 1⟩, ⟨1, 0, 0, 0⟩]⟩ := by
  constructor
  · refine ⟨?_, by norm_num [pymax], by norm_num [pymax]⟩
    rw [bucketFor, if_pos (by norm_num [pymax])]
  · have hLE : countLE df10 6 = 7 := by simp [countLE, df10]
    have hLT : countLT df10 6 = 6 := by simp [countLT, df10]
    have hlen : df10.length = 10 := by simp [df10]
    rw [backtestRange, if_neg (by norm_num), if_neg (by simp [df10]),
      hLE, hLT, hlen]
    rw [if_neg (by norm_num), if_neg (by norm_num [requiredLen, P0])]
    have hmax : max 6 (requiredLen P0 - 1) = 6 := by norm_num [requiredLen, P0]
    rw [hmax]
    have hrange : List.range' 6 ((((7 : Nat) : Int) - 1).toNat + 1 - 6) =
        [6] := by simp
    rw [hrange, List.foldlM_cons, rangeStep, findSignal_df10_6]
    dsimp only
    rw [if_pos rfl, if_neg (by norm_num [rowAt, df10, List.getD])]
    norm_num [recordForward, recordDay, bucketFor, incAt, bucketIncAt, rowAt,
      df10, List.getD, pymax, P0, initCounts, scenarioCounts, List.range_succ,
      List.takeWhile]
    refine ⟨?_, ?_, ?_⟩ <;>
      simp [List.replicate_succ, List.set, BucketCounts.incr]

/-- C4 corrected: the two down-bucket iffs hold unconditionally — down_gt_5
iff ret ≤ -t+tol and down_0_5 iff -t+tol < ret < -tol for every threshold t
— and when the threshold exceeds twice the tolerance (true of the claimed
setting: threshold 0.05, tol = max(eps, 1e-12) with default eps 1e-12) the
two up-bucket iffs hold as well: up_0_5 iff -tol ≤ ret ≤ t+tol and up_gt_5
iff ret > t+tol; for degenerate thresholds t ≤ 2·tol the chain's first
branch swallows part of the claimed up_0_5 range.  The claim's boundary scenario
holds as stated: a single trigger with forward returns exactly
{0, +0.05, -0.04} at days 1, 2, 3 and threshold 0.05 buckets as
{up_0_5, up_0_5, down_0_5}. -/
theorem c4_bucket_assignment :
    (∀ (eps t ret tol : ℚ), tol = pymax eps (1/1000000000000) →
      ((bucketFor tol t ret = .downGt ↔ ret ≤ -t + tol)
        ∧ (bucketFor tol t ret = .downSm ↔ -t + tol < ret ∧ ret < -tol)
        ∧ (2 * tol < t →
            (bucketFor tol t ret = .upSm ↔ -tol ≤ ret ∧ ret ≤ t + tol)
              ∧ (bucketFor tol t ret = .upGt ↔ t + tol < ret))))
    ∧ backtestRange df10 P0 6 6 3 "close" (1/20) = .ok scenarioCounts := by
  constructor
  · intro eps t ret tol htol
    have hq : (0 : ℚ) < 1/1000000000000 := by norm_num
    have htolpos : 0 < tol := by
      rw [htol, pymax]
      split_ifs with h
      · exact hq
      · linarith [not_lt.mp h]
    refine ⟨?_, ?_, fun h2t => ⟨?_, ?_⟩⟩ <;> rw [bucketFor] <;>
      split_ifs with h1 h2 h3
    · exact iff_of_true rfl h1
    · exact iff_of_false (by intro hh; cases hh) h1
    · exact iff_of_false (by intro hh; cases hh) h1
    · exact iff_of_false (by intro hh; cases hh) h1
    · exact iff_of_false (by intro hh; cases hh) (by intro h; linarith [h.1])
    · exact iff_of_true rfl ⟨not_le.mp h1, h2⟩
    · exact iff_of_false (by intro hh; cases hh)
        (by intro h; linarith [h.2, not_lt.mp h2])
    · exact iff_of_false (by intro hh; cases hh)
        (by intro h; linarith [h.2, not_lt.mp h2])
    · exact iff_of_false (by intro hh; cases hh) (by intro h; linarith [h.1])
    · exact iff_of_false (by intro hh; cases hh) (by intro h; linarith [h.1])
    · exact iff_of_true rfl ⟨not_lt.mp h2, h3⟩
    · exact iff_of_false (by intro hh; cases hh)
        (by intro h; linarith [h.2, not_le.mp h3])
    · exact iff_of_false (by intro hh; cases hh) (by intro h; linarith)
    · exact iff_of_false (by intro hh; cases hh) (by intro h; linarith)
    · exact iff_of_false (by intro hh; cases hh) (by intro h; linarith)
    · exact iff_of_true rfl (not_le.mp h3)
  · exact backtestRange_df10_eval

theorem c4_witness :
    (bucketFor (pymax (1/1000000000000) (1/1000000000000)) 0 0 = .downGt ↔
      (0 : ℚ) ≤ -0 + pymax (1/1000000000000) (1/1000000000000))
    ∧ (bucketFor (pymax (1/1000000000000) (1/1000000000000)) (1/20) 0 =
        .upSm ↔
      -(pymax (1/1000000000000) (1/1000000000000)) ≤ (0 : ℚ)
        ∧ (0 : ℚ) ≤ 1/20 + pymax (1/1000000000000) (1/1000000000000)) :=
  ⟨(c4_bucket_assignment.1 (1/1000000000000) 0 0
      (pymax (1/1000000000000) (1/1000000000000)) rfl).1,
    ((c4_bucket_assignment.1 (1/1000000000000) (1/20) 0
      (pymax (1/1000000000000) (1/1000000000000)) rfl).2.2
      (by norm_num [pymax])).1⟩

/-! ## C5: buckets partition the samples -/

/-- Invariant carried through the aggregation loop: the per-day lists cover
1..horizon and at every day the four bucket counts sum to the sample count. -/
def goodCounts (horizon : Nat) (c : RangeCounts) : Prop :=
  c.sampleByDay.length = horizon ∧ c.bucketByDay.length = horizon ∧
    ∀ i, i < horizon →
      (c.bucketByDay.getD i ⟨0, 0, 0, 0⟩).total = c.sampleByDay.getD i 0

theorem incr_total (b : BucketCounts) (k : Bucket) :
    (b.incr k).total = b.total + 1 := by
  cases k <;> simp [BucketCounts.incr, BucketCounts.total] <;> omega

theorem getD_set_self {γ : Type} (l : List γ) (i : Nat) (x d : γ)
    (h : i < l.length) : (l.set i x).getD i d = x := by
  rw [List.getD_eq_getElem?_getD, List.getElem?_set_self h]
  rfl

theorem getD_set_ne {γ : Type} (l : List γ) (i j : Nat) (x d : γ)
    (h : i ≠ j) : (l.set i x).getD j d = l.getD j d := by
  rw [List.getD_eq_getElem?_getD, List.getElem?_set_ne h,
    ← List.getD_eq_getElem?_getD]

theorem goodCounts_init (horizon : Nat) : goodCounts horizon (initCounts horizon) := by
  refine ⟨by simp [initCounts], by simp [initCounts], ?_⟩
  intro i hi
  simp [initCounts, List.getD_eq_getElem?_getD, List.getElem?_replicate, hi,
    BucketCounts.total]

theorem recordDay_good (tol threshold : ℚ) (acc : RangeCounts) (d : Nat)
    (ret : ℚ) (horizon : Nat) (h : goodCounts horizon acc) :
    goodCounts horizon (recordDay tol threshold acc d ret) := by
  obtain ⟨hs, hb, hsum⟩ := h
  refine ⟨by simp [recordDay, incAt, hs], by simp [recordDay, bucketIncAt, hb], ?_⟩
  intro i hi
  simp only [recordDay, incAt, bucketIncAt]
  by_cases hid : d - 1 = i
  · subst hid
    have hlts : d - 1 < acc.sampleByDay.length := by omega
    have hltb : d - 1 < acc.bucketByDay.length := by omega
    rw [getD_set_self _ _ _ _ hlts, getD_set_self _ _ _ _ hltb, incr_total,
      hsum (d - 1) hi]
  · rw [getD_set_ne _ _ _ _ _ hid, getD_set_ne _ _ _ _ _ hid]
    exact hsum i hi

theorem recordForward_good (df : List Row) (tol threshold entry : ℚ)
    (signalIdx horizon2 : Nat) (acc : RangeCounts) (horizon : Nat)
    (h : goodCounts horizon acc) :
    goodCounts horizon (recordForward df tol threshold entry signalIdx horizon2 acc) := by
  rw [recordForward]
  generalize (((List.range horizon2).map (fun d => d + 1)).takeWhile
    (fun d => decide (signalIdx + d < df.length))) = days
  induction days generalizing acc with
  | nil => exact h
  | cons d days ih =>
    rw [List.foldl_cons]
    exact ih _ (recordDay_good tol threshold acc d _ horizon h)

theorem rangeStep_good (P : Params) (df : List Row) (ee : String)
    (tol threshold : ℚ) (horizon2 : Nat) (acc c : RangeCounts) (asof : Nat)
    (horizon : Nat) (h : goodCounts horizon acc)
    (hstep : rangeStep P df ee tol threshold horizon2 acc asof = .ok c) :
    goodCounts horizon c := by
  have hbump : ∀ e t : Nat, goodCounts horizon
      { acc with evaluatedBars := e, triggeredEvents := t } := by
    intro e t
    exact ⟨h.1, h.2.1, h.2.2⟩
  rw [rangeStep] at hstep
  cases hfs : findSignal P df asof with
  | none =>
    rw [hfs] at hstep
    cases hstep
    exact hbump _ _
  | some sig =>
    rw [hfs] at hstep
    dsimp only at hstep
    by_cases h1 : ee = "close"
    · rw [if_pos h1] at hstep
      by_cases hc : (rowAt df sig).c ≤ 0
      · rw [if_pos hc] at hstep
        cases hstep
        exact hbump _ _
      · rw [if_neg hc] at hstep
        cases hstep
        exact recordForward_good _ _ _ _ _ _ _ _ (hbump _ _)
    · rw [if_neg h1] at hstep
      by_cases h2 : ee = "next_open"
      · rw [if_pos h2] at hstep
        by_cases hl : df.length ≤ sig + 1
        · rw [if_pos hl] at hstep
          cases hstep
          exact hbump _ _
        · rw [if_neg hl] at hstep
          by_cases ho : (rowAt df (sig + 1)).o ≤ 0
          · rw [if_pos ho] at hstep
            cases hstep
            exact hbump _ _
          · rw [if_neg ho] at hstep
            cases hstep
            exact recordForward_good _ _ _ _ _ _ _ _ (hbump _ _)
      · rw [if_neg h2] at hstep
        cases hstep

theorem foldlM_rangeStep_good (P : Params) (df : List Row) (ee : String)
    (tol threshold : ℚ) (horizon2 : Nat) (l : List Nat) (acc c : RangeCounts)
    (horizon : Nat) (h : goodCounts horizon acc)
    (hfold : l.foldlM (rangeStep P df ee tol threshold horizon2) acc = .ok c) :
    goodCounts horizon c := by
  induction l generalizing acc with
  | nil =>
    have : acc = c := by
      have hh : (Except.ok acc : Except RErr RangeCounts) = .ok c := hfold
      exact (Except.ok.inj hh)
    exact this ▸ h
  | cons x l ih =>
    cases hf : rangeStep P df ee tol threshold horizon2 acc x with
    | error e => rw [List.foldlM_cons, hf] at hfold; cases hfold
    | ok c1 =>
      rw [List.foldlM_cons, hf] at hfold
      exact ih c1 (rangeStep_good P df ee tol threshold horizon2 acc c1 x
        horizon h hf) hfold

/-- C5: whenever the range aggregator returns a summary, at every forward-day
offset d in 1..horizon the four bucket counts at day d sum exactly to that
day's sample count — every recorded forward return lands in exactly one
bucket. -/
theorem c5_buckets_partition (df : List Row) (P : Params) (startDt endDt : Int)
    (horizonI : Int) (ee : String) (threshold : ℚ) (c : RangeCounts)
    (h : backtestRange df P startDt endDt horizonI ee threshold = .ok c) :
    ∀ d, 1 ≤ d → d ≤ horizonI.toNat →
      (c.bucketByDay.getD (d - 1) ⟨0, 0, 0, 0⟩).total =
        c.sampleByDay.getD (d - 1) 0 := by
  have hgood : goodCounts horizonI.toNat c := by
    rw [backtestRange] at h
    by_cases h0 : horizonI < 1
    · rw [if_pos h0] at h; cases h
    · rw [if_neg h0] at h
      by_cases h1 : df.isEmpty
      · rw [if_pos h1] at h
        cases h
        exact goodCounts_init _
      · rw [if_neg h1] at h
        by_cases h2 : (countLE df endDt : Int) - 1 < 0
            ∨ (df.length : Int) - 1 < (countLT df startDt : Int)
            ∨ (countLE df endDt : Int) - 1 < (countLT df startDt : Int)
        · rw [if_pos h2] at h
          cases h
          exact goodCounts_init _
        · rw [if_neg h2] at h
          by_cases h3 : ((countLE df endDt : Int) - 1).toNat <
              max (countLT df startDt) (requiredLen P - 1)
          · rw [if_pos h3] at h
            cases h
            exact goodCounts_init _
          · rw [if_neg h3] at h
            exact foldlM_rangeStep_good P df ee _ threshold _ _ _ c _
              (goodCounts_init _) h
  intro d h1 h2
  exact hgood.2.2 (d - 1) (by omega)

theorem c5_witness :
    (scenarioCounts.bucketByDay.getD 1 ⟨0, 0, 0, 0⟩).total =
      scenarioCounts.sampleByDay.getD 1 0 :=
  c5_buckets_partition df10 P0 6 6 3 "close" (1/20) scenarioCounts
    backtestRange_df10_eval 2 (by norm_num) (by norm_num)

/-! ## C8: the emitted signal is the final indicator comparison
(engine.py `_ma_signal` 298-305, `_rsi_signal` 308-317) -/

inductive SignalAction
  | buy
  | sell
  | hold
deriving DecidableEq

/-- `_ma_signal`: BUY when the fast rolling mean exceeds the slow one at the
last index, SELL on the reverse strict comparison, HOLD otherwise; a NaN in
either mean makes both comparisons false, hence HOLD. -/
def maSignal (closes : List ℚ) (fast slow : Nat) : SignalAction :=
  match rollMeanAt fast closes (closes.length - 1),
      rollMeanAt slow closes (closes.length - 1) with
  | some f, some s => if s < f then .buy else if f < s then .sell else .hold
  | _, _ => .hold

/-- `_rsi_signal`: the last RSI value against the thresholds; the pd.isna
guard can only fire for the empty series in the NaN-free ℚ model. -/
def rsiSignal (closes : List ℚ) (L : Nat) (lower upper : ℚ) : SignalAction :=
  match (computeRsiSeries closes L).getLast? with
  | none => .hold
  | some r => if r < lower then .buy else if upper < r then .sell else .hold

/-- C8: for every bar series long enough to run the generic backtest, the
emitted signal is a function of the indicator values at the final bar only
(the trade simulation plays no part): ma_crossover emits BUY iff the final
fast mean strictly exceeds the final slow mean, SELL iff it is strictly
below, HOLD iff they are equal; rsi_reversal emits BUY iff the final RSI is
below the lower threshold, SELL iff above the upper, HOLD iff in between. -/
theorem c8_signal_from_final (closes : List ℚ) :
    (∀ fast slow : Nat, 1 ≤ fast → fast < slow → slow + 2 ≤ closes.length →
      ((maSignal closes fast slow = .buy ↔
          ((closes.drop (closes.length - slow)).take slow).sum / (slow : ℚ) <
            ((closes.drop (closes.length - fast)).take fast).sum / (fast : ℚ))
        ∧ (maSignal closes fast slow = .sell ↔
          ((closes.drop (closes.length - fast)).take fast).sum / (fast : ℚ) <
            ((closes.drop (closes.length - slow)).take slow).sum / (slow : ℚ))
        ∧ (maSignal closes fast slow = .hold ↔
          ((closes.drop (closes.length - fast)).take fast).sum / (fast : ℚ) =
            ((closes.drop (closes.length - slow)).take slow).sum / (slow : ℚ))))
    ∧ (∀ (L : Nat) (lower upper : ℚ), 2 ≤ L → L + 2 ≤ closes.length →
        lower ≤ upper →
      ((rsiSignal closes L lower upper = .buy ↔
          rsiAt closes L (closes.length - 1) < lower)
        ∧ (rsiSignal closes L lower upper = .sell ↔
          upper < rsiAt closes L (closes.length - 1))
        ∧ (rsiSignal closes L lower upper = .hold ↔
          lower ≤ rsiAt closes L (closes.length - 1)
            ∧ rsiAt closes L (closes.length - 1) ≤ upper))) := by
  constructor
  · intro fast slow hf hfs hn
    have hn1 : closes.length - 1 < closes.length := by omega
    have hidx : closes.length - 1 + 1 = closes.length := by omega
    have hfa : rollMeanAt fast closes (closes.length - 1) =
        some (((closes.drop (closes.length - fast)).take fast).sum /
          (fast : ℚ)) := by
      rw [rollMeanAt, if_pos ⟨by omega, hn1⟩, hidx]
    have hsa : rollMeanAt slow closes (closes.length - 1) =
        some (((closes.drop (closes.length - slow)).take slow).sum /
          (slow : ℚ)) := by
      rw [rollMeanAt, if_pos ⟨by omega, hn1⟩, hidx]
    rw [maSignal, hfa, hsa]
    dsimp only
    rcases lt_trichotomy
        (((closes.drop (closes.length - fast)).take fast).sum / (fast : ℚ))
        (((closes.drop (closes.length - slow)).take slow).sum / (slow : ℚ))
      with hlt | heq | hgt
    · rw [if_neg (by linarith), if_pos hlt]
      exact ⟨iff_of_false (by intro hh; cases hh) (by linarith),
        iff_of_true rfl hlt,
        iff_of_false (by intro hh; cases hh) (by intro hh; linarith)⟩
    · rw [if_neg (by linarith), if_neg (by linarith)]
      exact ⟨iff_of_false (by intro hh; cases hh) (by linarith),
        iff_of_false (by intro hh; cases hh) (by linarith),
        iff_of_true rfl heq⟩
    · rw [if_pos hgt]
      exact ⟨iff_of_true rfl hgt,
        iff_of_false (by intro hh; cases hh) (by linarith),
        iff_of_false (by intro hh; cases hh) (by intro hh; linarith)⟩
  · intro L lower upper hL hn hlu
    have hlast : (computeRsiSeries closes L).getLast? =
        some (rsiAt closes L (closes.length - 1)) := by
      obtain ⟨m, hm⟩ : ∃ m, closes.length = m + 1 :=
        ⟨closes.length - 1, by omega⟩
      rw [computeRsiSeries, hm, List.range_succ, List.map_append]
      simp
    rw [rsiSignal, hlast]
    dsimp only
    by_cases hb : rsiAt closes L (closes.length - 1) < lower
    · rw [if_pos hb]
      exact ⟨iff_of_true rfl hb,
        iff_of_false (by intro hh; cases hh) (by linarith),
        iff_of_false (by intro hh; cases hh) (by intro hh; linarith [hh.1])⟩
    · rw [if_neg hb]
      by_cases hs : upper < rsiAt closes L (closes.length - 1)
      · rw [if_pos hs]
        exact ⟨iff_of_false (by intro hh; cases hh) hb,
          iff_of_true rfl hs,
          iff_of_false (by intro hh; cases hh) (by intro hh; linarith [hh.2])⟩
      · rw [if_neg hs]
        exact ⟨iff_of_false (by intro hh; cases hh) hb,
          iff_of_false (by intro hh; cases hh) hs,
          iff_of_true rfl ⟨not_lt.mp hb, not_lt.mp hs⟩⟩

theorem c8_witness :
    (maSignal [(1 : ℚ), 2, 3, 4, 10] 2 3 = .buy ↔
      ((([(1 : ℚ), 2, 3, 4, 10].drop ([(1 : ℚ), 2, 3, 4, 10].length - 3)).take
          3).sum / (3 : ℚ) <
        ((([(1 : ℚ), 2, 3, 4, 10]).drop
          ([(1 : ℚ), 2, 3, 4, 10].length - 2)).take 2).sum / (2 : ℚ)))
    ∧ (rsiSignal [(1 : ℚ), 2, 3, 4] 2 30 70 = .buy ↔
      rsiAt [(1 : ℚ), 2, 3, 4] 2 ([(1 : ℚ), 2, 3, 4].length - 1) < 30) :=
  ⟨((c8_signal_from_final [(1 : ℚ), 2, 3, 4, 10]).1 2 3 (by norm_num)
      (by norm_num) (by simp)).1,
    ((c8_signal_from_final [(1 : ℚ), 2, 3, 4]).2 2 30 70 (by norm_num)
      (by simp) (by norm_num)).1⟩
